import Mathlib

/-! # Registration form validation (`script.js`)

A shallow embedding of the registration form script: the five field validators, the
helpers that render a field's error state, the `input` and `keydown` listeners, the
submit handler that appends the accepted name to the list kept in `localStorage` under
the key `submittedUsers`, and the rendering, deletion and clearing of that list.

Strings are JavaScript strings, i.e. sequences of UTF-16 code units; `length`, `trim`
and the (non-unicode) regular expressions of the script all work on code units.
-/

namespace FormValidation

/-! ## Strings -/

/-- A JavaScript string: the list of its UTF-16 code units (each one below 65536). -/
abbrev JSString := List Nat

/-- The JavaScript string denoted by a literal: its UTF-16 encoding. -/
def js (s : String) : JSString :=
  s.toList.flatMap fun c =>
    if c.toNat < 65536 then [c.toNat]
    else [55296 + (c.toNat - 65536) / 1024, 56320 + (c.toNat - 65536) % 1024]

/-- The code units that `String.prototype.trim` strips and that `\s` matches:
the ECMAScript WhiteSpace and LineTerminator code points. -/
def isWhiteSpace (c : Nat) : Bool :=
  c == 9 || c == 10 || c == 11 || c == 12 || c == 13 || c == 32 || c == 160 ||
  c == 5760 || (decide (8192 ≤ c) && decide (c ≤ 8202)) || c == 8232 || c == 8233 ||
  c == 8239 || c == 8287 || c == 12288 || c == 65279

/-- The method `String.prototype.trimStart`. -/
def trimStart (s : JSString) : JSString := s.dropWhile isWhiteSpace

/-- The method `String.prototype.trimEnd`. -/
def trimEnd (s : JSString) : JSString := (s.reverse.dropWhile isWhiteSpace).reverse

/-- The method `String.prototype.trim`. -/
def trim (s : JSString) : JSString := trimEnd (trimStart s)

/-- ASCII upper-case letter `[A-Z]`. -/
def isUpper (c : Nat) : Bool := decide (65 ≤ c) && decide (c ≤ 90)

/-- ASCII lower-case letter `[a-z]`. -/
def isLower (c : Nat) : Bool := decide (97 ≤ c) && decide (c ≤ 122)

/-- The class `[A-Za-z]`. -/
def isLetter (c : Nat) : Bool := isUpper c || isLower c

/-- The class `\d` (ASCII digits only in JavaScript). -/
def isDigit (c : Nat) : Bool := decide (48 ≤ c) && decide (c ≤ 57)

/-- Lower-casing of one ASCII code unit. -/
def lowerAscii (c : Nat) : Nat := if isUpper c then c + 32 else c

/-- The method `String.prototype.toLowerCase`. On a string of ASCII code units it maps
`A`..`Z` to `a`..`z` and keeps the rest. On a string with a code unit outside ASCII the
result comes from the Unicode case tables of the host, which are not part of the
script: they are the parameter `U`. -/
def toLowerCase (U : JSString → JSString) (s : JSString) : JSString :=
  if s.all (fun c => decide (c < 128)) then s.map lowerAscii else U s

/-! ## Regular expressions

The three patterns of the script are anchored with `^` and `$`, carry no flags and use
only classes, concatenation and repetition, so `test` is whole-string membership. It is
computed with Brzozowski derivatives over code units. -/

/-- Regular expressions over code units. -/
inductive Regex where
  | empty : Regex
  | eps : Regex
  | cls (p : Nat → Bool) : Regex
  | seq (a b : Regex) : Regex
  | alt (a b : Regex) : Regex
  | star (a : Regex) : Regex

namespace Regex

/-- Does the expression accept the empty string? -/
def nullable : Regex → Bool
  | empty => false
  | eps => true
  | cls _ => false
  | seq a b => nullable a && nullable b
  | alt a b => nullable a || nullable b
  | star _ => true

/-- Derivative of an expression with respect to one code unit. -/
def deriv : Regex → Nat → Regex
  | empty, _ => empty
  | eps, _ => empty
  | cls p, c => if p c then eps else empty
  | seq a b, c =>
    if nullable a then alt (seq (deriv a c) b) (deriv b c) else seq (deriv a c) b
  | alt a b, c => alt (deriv a c) (deriv b c)
  | star a, c => seq (deriv a c) (star a)

/-- The call `/^r$/.test(s)`. -/
def test (r : Regex) (s : JSString) : Bool := nullable (s.foldl deriv r)

/-- The quantifier `r+`. -/
def plus (r : Regex) : Regex := seq r (star r)

/-- The quantifier `r{n}`. -/
def rep : Nat → Regex → Regex
  | 0, _ => eps
  | n + 1, r => seq r (rep n r)

/-- The quantifier `r{n,}`. -/
def atLeast (n : Nat) (r : Regex) : Regex := seq (rep n r) (star r)

/-- A single literal code unit. -/
def chr (k : Nat) : Regex := cls fun c => c == k

/-- The language of an expression: the strings it accepts as a whole. -/
inductive Matches : Regex → JSString → Prop
  | eps : Matches eps []
  | cls {p : Nat → Bool} {c : Nat} : p c = true → Matches (cls p) [c]
  | seq {a b : Regex} {u v : JSString} :
      Matches a u → Matches b v → Matches (seq a b) (u ++ v)
  | altL {a b : Regex} {u : JSString} : Matches a u → Matches (alt a b) u
  | altR {a b : Regex} {u : JSString} : Matches b u → Matches (alt a b) u
  | starNil {a : Regex} : Matches (star a) []
  | starCons {a : Regex} {u v : JSString} :
      Matches a u → Matches (star a) v → Matches (star a) (u ++ v)

end Regex

/-- The pattern `/^[A-Za-z ]+$/` of `validateName`. -/
def namePattern : Regex := Regex.plus (Regex.cls fun c => isLetter c || c == 32)

/-- The pattern `/^[^@\s]+@[^@\s]+\.[a-zA-Z]{2,}$/` of `validateEmail`. -/
def emailPattern : Regex :=
  Regex.seq (Regex.plus (Regex.cls fun c => !(c == 64 || isWhiteSpace c)))
    (Regex.seq (Regex.chr 64)
      (Regex.seq (Regex.plus (Regex.cls fun c => !(c == 64 || isWhiteSpace c)))
        (Regex.seq (Regex.chr 46) (Regex.atLeast 2 (Regex.cls isLetter)))))

/-- The pattern `/^\d{10}$/` of `validatePhone`. -/
def phonePattern : Regex := Regex.rep 10 (Regex.cls isDigit)

/-! ## The page -/

/-- The five inputs, in the order of the array `fields`. -/
inductive FieldId where
  | fullName | email | phone | password | confirmPassword
  deriving DecidableEq, Repr

/-- One input element together with its error element (the element whose id is the
input's id followed by `Error`). `errorText` is the `innerText` of the error element,
or `none` when the page has no such element. `isInvalid` and `isValid` say whether the
input's class list holds `is-invalid` and `is-valid`. -/
structure Input where
  value : JSString
  errorText : Option JSString
  isInvalid : Bool
  isValid : Bool
  deriving DecidableEq, Repr

/-- A number produced by `JSON.parse`: a finite one, given by its exact value (the two
zeros are not told apart), or one of the two infinities, which a literal beyond the
range of a double such as `1e400` parses to. -/
inductive JSNumber where
  | finite (q : ℚ) : JSNumber
  | infinite (negative : Bool) : JSNumber
  deriving DecidableEq

/-- A value produced by `JSON.parse`. The fields of an object are its own properties
in the order of enumeration. -/
inductive JSValue where
  | null : JSValue
  | bool (b : Bool) : JSValue
  | number (n : JSNumber) : JSValue
  | string (s : JSString) : JSValue
  | array (xs : List JSValue) : JSValue
  | object (fields : List (JSString × JSValue)) : JSValue

mutual
/-- What `JSON.parse` makes of the text that `JSON.stringify` writes for a value: the
value itself, but for the infinite numbers in it, which are written as `null`. -/
def restore : JSValue → JSValue
  | .number (.infinite _) => .null
  | .array xs => .array (restoreList xs)
  | .object fields => .object (restoreFields fields)
  | v => v
/-- The elements of an array, each as `restore` gives it. -/
def restoreList : List JSValue → List JSValue
  | [] => []
  | x :: xs => restore x :: restoreList xs
/-- The properties of an object, each value as `restore` gives it. -/
def restoreFields : List (JSString × JSValue) → List (JSString × JSValue)
  | [] => []
  | (k, v) :: rest => (k, restore v) :: restoreFields rest
end

mutual
/-- Can `name + ' '` be evaluated? An object whose own property `toString` holds a
JSON value (never a function) has no primitive value, and the concatenation raises a
`TypeError`; so does an array that holds such an object, whose text is the join of its
elements' texts. Every other value has a text. -/
def hasText : JSValue → Bool
  | .array xs => allText xs
  | .object fields => !(fields.any fun kv => kv.1 == js "toString")
  | _ => true
/-- Do all elements of an array have a text? -/
def allText : List JSValue → Bool
  | [] => true
  | x :: xs => hasText x && allText xs
end

/-- What `localStorage` holds under the key `submittedUsers`, described by what
`JSON.parse` makes of it: no entry, a text that is not JSON, or the text of a JSON
value. The text that `JSON.stringify` writes for a value `v` is `json (restore v)`. -/
inductive Stored where
  | absent : Stored
  | malformed : Stored
  | json (v : JSValue) : Stored

/-- Exceptions the script can raise. -/
inductive JSError where
  | syntaxError | typeError
  deriving DecidableEq, Repr

/-- The state the script reads and writes. -/
structure World where
  fullName : Input
  email : Input
  phone : Input
  password : Input
  confirmPassword : Input
  storage : Stored
  /-- Number of queued `setTimeout(updateSubmissionStats, 0)` callbacks. -/
  timers : Nat
  /-- Messages shown with `alert`, oldest first. -/
  alerts : List JSString
  /-- The `innerText` of the element `userCount`, or `none` when the page has none. -/
  userCount : Option JSString
  /-- The rendering of the element `userList`, or `none` when the page has none: the
  array `users` that the listed items were made from and that their Delete buttons
  hold. The item at position `idx` shows `users[idx] + ' '` and its button holds `idx`. -/
  userList : Option (List JSValue)
  /-- The input that has the focus, if one has. -/
  focus : Option FieldId
  /-- The number of items that the element `userList` shows, from the front of the
  array: a rendering stops at the first element that has no text. -/
  userShown : Nat

/-- The input element of a field. -/
def World.get (w : World) : FieldId → Input
  | .fullName => w.fullName
  | .email => w.email
  | .phone => w.phone
  | .password => w.password
  | .confirmPassword => w.confirmPassword

/-- Replace the input element of a field. -/
def World.set (w : World) : FieldId → Input → World
  | .fullName, i => { w with fullName := i }
  | .email, i => { w with email := i }
  | .phone, i => { w with phone := i }
  | .password, i => { w with password := i }
  | .confirmPassword, i => { w with confirmPassword := i }

/-! ## Helper functions -/

/-- The helper `showError(input, message)`. -/
def showError (input : Input) (message : JSString) : Input :=
  { input with
    errorText := input.errorText.map fun _ => message
    isInvalid := true
    isValid := false }

/-- The helper `clearError(input)`. -/
def clearError (input : Input) : Input :=
  { input with
    errorText := input.errorText.map fun _ => []
    isInvalid := false
    isValid := false }

/-- The helper `setValid(input)`. -/
def setValid (input : Input) : Input :=
  { input with isInvalid := false, isValid := true }

/-! ## Validation functions -/

/-- The function `validateName`. -/
def validateName (w : World) : Bool × World :=
  let nameVal := trim w.fullName.value
  if nameVal.length < 5 then
    (false, { w with
      fullName := showError w.fullName (js "Name must be at least 5 characters") })
  else if !namePattern.test nameVal then
    (false, { w with
      fullName := showError w.fullName (js "Name must contain only letters and spaces") })
  else
    (true, { w with fullName := clearError (setValid w.fullName) })

/-- The function `validateEmail`. -/
def validateEmail (w : World) : Bool × World :=
  let emailVal := trim w.email.value
  if !emailPattern.test emailVal then
    (false, { w with email := showError w.email (js "Enter a valid email address") })
  else
    (true, { w with email := clearError (setValid w.email) })

/-- The function `validatePhone`. -/
def validatePhone (w : World) : Bool × World :=
  let val := trim w.phone.value
  if !phonePattern.test val || val == js "1234567890" then
    (false, { w with
      phone := showError w.phone (js "Enter a valid 10-digit phone number") })
  else
    (true, { w with phone := clearError (setValid w.phone) })

/-- The function `validatePassword`. -/
def validatePassword (U : JSString → JSString) (w : World) : Bool × World :=
  let val := w.password.value
  let nameVal := toLowerCase U (trim w.fullName.value)
  if decide (val.length < 8) || toLowerCase U val == js "password" ||
      toLowerCase U val == nameVal then
    (false, { w with password := showError w.password (js "Password is too weak") })
  else
    (true, { w with password := clearError (setValid w.password) })

/-- The function `validateConfirmPassword`. -/
def validateConfirmPassword (w : World) : Bool × World :=
  if w.confirmPassword.value != w.password.value ||
      w.password.value.length == 0 then
    (false, { w with
      confirmPassword := showError w.confirmPassword (js "Passwords do not match") })
  else
    (true, { w with confirmPassword := clearError (setValid w.confirmPassword) })

/-! ## Form submission -/

/-- The call `JSON.parse(localStorage.getItem('submittedUsers'))`. With no entry
`getItem` gives `null`, which `JSON.parse` reads as the text `null`; a text that is not
JSON raises a `SyntaxError`. -/
def parseStored : Stored → Except JSError JSValue
  | .absent => .ok .null
  | .malformed => .error .syntaxError
  | .json v => .ok v

/-- Truthiness of a parsed JSON value, as `||` tests it. -/
def truthy : JSValue → Bool
  | .null => false
  | .bool b => b
  | .number (.finite q) => decide (q ≠ 0)
  | .number (.infinite _) => true
  | .string s => !s.isEmpty
  | .array _ => true
  | .object _ => true

/-- The expression `JSON.parse(localStorage.getItem('submittedUsers')) || []`, with
which both the submit listener and `updateSubmissionStats` read the list. -/
def loadUsers (st : Stored) : Except JSError JSValue :=
  match parseStored st with
  | .error e => .error e
  | .ok v => .ok (if truthy v then v else .array [])

/-- The call `users.push(x)`: it appends to an array; no other JSON value has a
callable `push`, so the call raises a `TypeError`. -/
def push (users : JSValue) (x : JSValue) : Except JSError JSValue :=
  match users with
  | .array xs => .ok (.array (xs ++ [x]))
  | _ => .error .typeError

/-- Modelled from the spec: the markup of the registration form is not part of the
sources, so the default value to which `form.reset()` returns each input is taken from
the specification, where a reset leaves every field empty. -/
def defaultValue : FieldId → JSString := fun _ => []

/-- The call `form.reset()`. -/
def resetForm (w : World) : World :=
  { w with
    fullName := { w.fullName with value := defaultValue .fullName }
    email := { w.email with value := defaultValue .email }
    phone := { w.phone with value := defaultValue .phone }
    password := { w.password with value := defaultValue .password }
    confirmPassword := { w.confirmPassword with value := defaultValue .confirmPassword } }

/-- The call `fields.forEach(clearError)`. -/
def clearAllErrors (w : World) : World :=
  { w with
    fullName := clearError w.fullName
    email := clearError w.email
    phone := clearError w.phone
    password := clearError w.password
    confirmPassword := clearError w.confirmPassword }

/-- What running a handler leaves behind: the state, and the exception that ended the
handler, if one did. -/
structure Run where
  world : World
  raised : Option JSError

/-- The `submit` listener of the form. The write `localStorage.setItem` is taken to
succeed: a full store (quota error) is outside the model. -/
def onSubmit (U : JSString → JSString) (w : World) : Run :=
  let r1 := validateName w
  let r2 := validateEmail r1.2
  let r3 := validatePhone r2.2
  let r4 := validatePassword U r3.2
  let r5 := validateConfirmPassword r4.2
  let valid := r1.1 && r2.1 && r3.1 && r4.1 && r5.1
  let w5 := r5.2
  if valid then
    match loadUsers w5.storage with
    | .error e => ⟨w5, some e⟩
    | .ok users =>
      match push users (.string (trim w5.fullName.value)) with
      | .error e => ⟨w5, some e⟩
      | .ok users1 =>
        let w6 := { w5 with storage := .json (restore users1) }
        let w7 := { w6 with timers := w6.timers + 1 }
        let w8 := { w7 with alerts := w7.alerts ++ [js "Form submitted successfully!"] }
        ⟨clearAllErrors (resetForm w8), none⟩
  else ⟨w5, none⟩

/-- The dispatch of the `keydown` listener: the validator that belongs to an input. -/
def validateField (U : JSString → JSString) : FieldId → World → Bool × World
  | .fullName, w => validateName w
  | .email, w => validateEmail w
  | .phone, w => validatePhone w
  | .password, w => validatePassword U w
  | .confirmPassword, w => validateConfirmPassword w

/-- The state after the five validator calls that open the `submit` listener, made in
the order name, email, phone, password, confirm-password. -/
def afterValidators (U : JSString → JSString) (w : World) : World :=
  (validateConfirmPassword
    (validatePassword U (validatePhone (validateEmail (validateName w).2).2).2).2).2

/-- Do all five validators accept the current field values? -/
def allValid (U : JSString → JSString) (w : World) : Bool :=
  (validateName w).1 && (validateEmail w).1 && (validatePhone w).1 &&
    (validatePassword U w).1 && (validateConfirmPassword w).1

/-- The pattern `^[A-Za-z ]{5,}$` by which the specification describes accepted names
(the script itself tests the length and the pattern `/^[A-Za-z ]+$/` separately). -/
def specNamePattern : Regex := Regex.atLeast 5 (Regex.cls fun c => isLetter c || c == 32)

/-- An input holding the given text, with an empty error element and no mark. -/
def Input.ofText (s : String) : Input :=
  { value := js s, errorText := some [], isInvalid := false, isValid := false }

/-- A filled-in form on a page whose store has no entry yet. -/
def exampleForm (name email phone password confirm : String) : World :=
  { fullName := Input.ofText name
    email := Input.ofText email
    phone := Input.ofText phone
    password := Input.ofText password
    confirmPassword := Input.ofText confirm
    storage := .absent
    timers := 0
    alerts := []
    userCount := some []
    userList := some []
    focus := none
    userShown := 0 }

/-- The list of submitted names that the store holds, when it holds one: an absent key
is the empty list, and a JSON array of strings is that list of strings. -/
def asNames : List JSValue → Option (List JSString)
  | [] => some []
  | .string s :: rest => (asNames rest).map (s :: ·)
  | _ :: _ => none

/-- The stored list of names. -/
def storedNames : Stored → Option (List JSString)
  | .absent => some []
  | .json (.array xs) => asNames xs
  | _ => none

/-! ## Real-time validation and Enter key navigation -/

/-- The `input` listeners: each input re-runs its own validator. -/
def onInput (U : JSString → JSString) : FieldId → World → World
  | .fullName, w => (validateName w).2
  | .email, w => (validateEmail w).2
  | .phone, w => (validatePhone w).2
  | .password, w => (validatePassword U w).2
  | .confirmPassword, w => (validateConfirmPassword w).2

/-- The array `fields`. -/
def fields : List FieldId :=
  [.fullName, .email, .phone, .password, .confirmPassword]

/-- The position of an input in the array `fields`. -/
def FieldId.idx : FieldId → Nat
  | .fullName => 0
  | .email => 1
  | .phone => 2
  | .password => 3
  | .confirmPassword => 4

/-- The `keydown` listener of an input, for the key `key`. The call
`form.requestSubmit()` is taken to dispatch the `submit` event to the listener
`onSubmit`; an exception of that listener is reported, and is kept in `raised`. -/
def onKeydown (U : JSString → JSString) (input : FieldId) (key : JSString)
    (w : World) : Run :=
  if key == js "Enter" then
    let r := validateField U input w
    if r.1 then
      if input.idx < fields.length - 1 then
        ⟨{ r.2 with focus := fields[input.idx + 1]? }, none⟩
      else onSubmit U r.2
    else ⟨r.2, none⟩
  else ⟨w, none⟩

/-! ## Response management -/

/-- The decimal text of a natural number. -/
def decimal (n : Nat) : JSString := js (Nat.repr n)

/-- The text of `users.length` in the template literal. For an array it is the decimal
text of its length. For a value that is not an array it is what the host makes of that
value's `length` property (`undefined` for most values), which the script does not
determine: the parameter `T`. -/
def lengthText (T : JSValue → JSString) : JSValue → JSString
  | .array xs => decimal xs.length
  | v => T v

/-- The function `updateSubmissionStats`. For a value that is not an array the call
`users.forEach` raises a `TypeError`, after the count was written and the list was
emptied. For an array the items are made one by one, and `name + ' '` raises a
`TypeError` at the first element that has no text, after the items before it were
added; the buttons of those items hold the whole array. -/
def updateSubmissionStats (T : JSValue → JSString) (w : World) : Run :=
  match loadUsers w.storage with
  | .error e => ⟨w, some e⟩
  | .ok users =>
    let w1 := { w with
      userCount := w.userCount.map fun _ =>
        lengthText T users ++ js " people have responded" }
    match w1.userList with
    | none => ⟨w1, none⟩
    | some _ =>
      match users with
      | .array xs =>
        ⟨{ w1 with userList := some xs, userShown := (xs.takeWhile hasText).length },
          if xs.all hasText then none else some .typeError⟩
      | _ => ⟨{ w1 with userList := some [], userShown := 0 }, some .typeError⟩

/-- The `onclick` of the Delete button that holds `idx`: it removes the element at
`idx` from the array the buttons hold, writes the array and renders again. When the
list shows no item at `idx` there is no such button and nothing happens. -/
def onDeleteClick (T : JSValue → JSString) (idx : Nat) (w : World) : Run :=
  match w.userList with
  | none => ⟨w, none⟩
  | some users =>
    if idx < w.userShown then
      updateSubmissionStats T
        { w with storage := .json (restore (.array (users.eraseIdx idx))) }
    else ⟨w, none⟩

/-- The `click` listener of the button `clearResponses`; `confirmed` is the answer
given to `confirm`. -/
def onClearClick (T : JSValue → JSString) (confirmed : Bool) (w : World) : Run :=
  if confirmed then updateSubmissionStats T { w with storage := .absent }
  else ⟨w, none⟩

/-- One queued `setTimeout(updateSubmissionStats, 0)` callback runs. -/
def runTimer (T : JSValue → JSString) (w : World) : Run :=
  if w.timers = 0 then ⟨w, none⟩
  else updateSubmissionStats T { w with timers := w.timers - 1 }

/-! ## Sessions -/

/-- The user changes the text of an input to `text`. -/
def setValue (w : World) (f : FieldId) (text : JSString) : World :=
  w.set f { w.get f with value := text }

/-- What can happen on the page: the user edits an input (its value changes and its
`input` listener runs), presses a key in an input, submits the form, clicks the Delete
button at a position of the rendered list, clicks the clear button and answers the
confirmation, or a queued refresh of the list runs. -/
inductive Event where
  | edit (f : FieldId) (text : JSString) : Event
  | key (f : FieldId) (key : JSString) : Event
  | submit : Event
  | delete (idx : Nat) : Event
  | clear (confirmed : Bool) : Event
  | timer : Event

/-- The state after one event. -/
def step (U : JSString → JSString) (T : JSValue → JSString) (w : World) : Event → World
  | .edit f text => onInput U f (setValue w f text)
  | .key f key => (onKeydown U f key w).world
  | .submit => (onSubmit U w).world
  | .delete idx => (onDeleteClick T idx w).world
  | .clear confirmed => (onClearClick T confirmed w).world
  | .timer => (runTimer T w).world

/-- The state after a sequence of events. -/
def run (U : JSString → JSString) (T : JSValue → JSString) (w : World)
    (es : List Event) : World :=
  es.foldl (step U T) w

/-- A name as `validateName` lets it into the store: at least five code units, all of
them ASCII letters or spaces, with no whitespace at either end. -/
def GoodName (n : JSString) : Prop :=
  5 ≤ n.length ∧ (∀ c ∈ n, isLetter c = true ∨ c = 32) ∧
  (∀ c, n.head? = some c → isWhiteSpace c = false) ∧
  (∀ c, n.getLast? = some c → isWhiteSpace c = false)

/-- The store holds a list of good names, and so does the rendered list. -/
def StoreInv (w : World) : Prop :=
  (∃ L, storedNames w.storage = some L ∧ ∀ n ∈ L, GoodName n) ∧
  (∀ xs, w.userList = some xs → ∃ L, asNames xs = some L ∧ ∀ n ∈ L, GoodName n)

/-! ## Regular expressions: the matcher computes the language -/

namespace Regex

theorem nullable_iff (r : Regex) : r.nullable = true ↔ Matches r [] := by
  constructor
  · intro h
    induction r with
    | empty => simp [nullable] at h
    | eps => exact Matches.eps
    | cls p => simp [nullable] at h
    | seq a b iha ihb =>
      simp only [nullable, Bool.and_eq_true] at h
      exact Matches.seq (u := []) (v := []) (iha h.1) (ihb h.2)
    | alt a b iha ihb =>
      simp only [nullable, Bool.or_eq_true] at h
      rcases h with h | h
      · exact Matches.altL (iha h)
      · exact Matches.altR (ihb h)
    | star a _ => exact Matches.starNil
  · intro h
    generalize hs : ([] : JSString) = s at h
    induction h with
    | eps => rfl
    | cls _ => simp at hs
    | seq _ _ iha ihb =>
      have := List.append_eq_nil.mp hs.symm
      simp [nullable, iha this.1.symm, ihb this.2.symm]
    | altL _ ih => simp [nullable, ih hs]
    | altR _ ih => simp [nullable, ih hs]
    | starNil => rfl
    | starCons _ _ _ _ => rfl

theorem matches_of_deriv (r : Regex) (c : Nat) (s : JSString)
    (h : Matches (r.deriv c) s) : Matches r (c :: s) := by
  induction r generalizing s with
  | empty => simp only [deriv] at h; cases h
  | eps => simp only [deriv] at h; cases h
  | cls p =>
    simp only [deriv] at h
    by_cases hp : p c = true
    · rw [if_pos hp] at h
      cases h
      exact Matches.cls hp
    · rw [if_neg hp] at h
      cases h
  | seq a b iha ihb =>
    simp only [deriv] at h
    by_cases hn : a.nullable = true
    · rw [if_pos hn] at h
      cases h with
      | altL h1 =>
        cases h1 with
        | seq ha hb => exact Matches.seq (iha _ ha) hb
      | altR h2 =>
        exact Matches.seq (u := []) ((nullable_iff a).mp hn) (ihb _ h2)
    · rw [if_neg hn] at h
      cases h with
      | seq ha hb => exact Matches.seq (iha _ ha) hb
  | alt a b iha ihb =>
    simp only [deriv] at h
    cases h with
    | altL h1 => exact Matches.altL (iha _ h1)
    | altR h2 => exact Matches.altR (ihb _ h2)
  | star a iha =>
    simp only [deriv] at h
    cases h with
    | seq ha hb => exact Matches.starCons (iha _ ha) hb

theorem deriv_of_matches (r : Regex) (c : Nat) (s w : JSString)
    (h : Matches r w) (hw : w = c :: s) : Matches (r.deriv c) s := by
  induction h generalizing s with
  | eps => simp at hw
  | @cls p d hp =>
    simp only [List.cons.injEq] at hw
    obtain ⟨rfl, rfl⟩ := hw
    simp only [deriv, if_pos hp]
    exact Matches.eps
  | @seq a b u v ha hb iha ihb =>
    cases u with
    | nil =>
      simp only [List.nil_append] at hw
      have hn : a.nullable = true := (nullable_iff a).mpr ha
      simp only [deriv, if_pos hn]
      exact Matches.altR (ihb _ hw)
    | cons d u1 =>
      simp only [List.cons_append, List.cons.injEq] at hw
      obtain ⟨rfl, rfl⟩ := hw
      have h1 : Matches (a.deriv d) u1 := iha _ rfl
      simp only [deriv]
      split
      · exact Matches.altL (Matches.seq h1 hb)
      · exact Matches.seq h1 hb
  | altL _ ih => simp only [deriv]; exact Matches.altL (ih _ hw)
  | altR _ ih => simp only [deriv]; exact Matches.altR (ih _ hw)
  | starNil => simp at hw
  | @starCons a u v ha hb iha ihb =>
    cases u with
    | nil =>
      simp only [List.nil_append] at hw
      exact ihb _ hw
    | cons d u1 =>
      simp only [List.cons_append, List.cons.injEq] at hw
      obtain ⟨rfl, rfl⟩ := hw
      simp only [deriv]
      exact Matches.seq (iha _ rfl) hb

theorem test_cons (r : Regex) (c : Nat) (s : JSString) :
    r.test (c :: s) = (r.deriv c).test s := rfl

/-- The derivative matcher decides membership in the language of the expression. -/
theorem test_iff (r : Regex) (s : JSString) : r.test s = true ↔ Matches r s := by
  induction s generalizing r with
  | nil => exact nullable_iff r
  | cons c s ih =>
    rw [test_cons, ih]
    exact ⟨matches_of_deriv r c s, fun h => deriv_of_matches r c s _ h rfl⟩

theorem matches_cls_iff (p : Nat → Bool) (s : JSString) :
    Matches (cls p) s ↔ ∃ c, s = [c] ∧ p c = true := by
  constructor
  · intro h
    cases h with
    | cls hp => exact ⟨_, rfl, hp⟩
  · rintro ⟨c, rfl, hp⟩
    exact Matches.cls hp

theorem matches_seq_iff (a b : Regex) (s : JSString) :
    Matches (seq a b) s ↔ ∃ u v, s = u ++ v ∧ Matches a u ∧ Matches b v := by
  constructor
  · intro h
    cases h with
    | seq ha hb => exact ⟨_, _, rfl, ha, hb⟩
  · rintro ⟨u, v, rfl, ha, hb⟩
    exact Matches.seq ha hb

theorem matches_star_cls (p : Nat → Bool) (s : JSString) :
    Matches (star (cls p)) s ↔ ∀ c ∈ s, p c = true := by
  constructor
  · intro h
    generalize hr : star (cls p) = r at h
    induction h with
    | eps => cases hr
    | cls _ => cases hr
    | seq _ _ _ _ => cases hr
    | altL _ _ => cases hr
    | altR _ _ => cases hr
    | starNil => simp
    | starCons ha _ _ ihb =>
      cases hr
      obtain ⟨c, rfl, hp⟩ := (matches_cls_iff p _).mp ha
      intro d hd
      simp only [List.singleton_append, List.mem_cons] at hd
      rcases hd with rfl | hd
      · exact hp
      · exact ihb rfl d hd
  · intro h
    induction s with
    | nil => exact Matches.starNil
    | cons c s ih =>
      have h1 : Matches (cls p) [c] := Matches.cls (h c (List.mem_cons_self c s))
      have h2 : Matches (star (cls p)) s :=
        ih fun d hd => h d (List.mem_cons_of_mem c hd)
      exact Matches.starCons h1 h2

theorem matches_plus_cls (p : Nat → Bool) (s : JSString) :
    Matches (plus (cls p)) s ↔ s ≠ [] ∧ ∀ c ∈ s, p c = true := by
  unfold plus
  rw [matches_seq_iff]
  constructor
  · rintro ⟨u, v, rfl, hu, hv⟩
    obtain ⟨c, rfl, hp⟩ := (matches_cls_iff p _).mp hu
    refine ⟨by simp, ?_⟩
    intro d hd
    simp only [List.singleton_append, List.mem_cons] at hd
    rcases hd with rfl | hd
    · exact hp
    · exact (matches_star_cls p v).mp hv d hd
  · rintro ⟨hne, h⟩
    cases s with
    | nil => exact absurd rfl hne
    | cons c t =>
      refine ⟨[c], t, rfl, Matches.cls (h c (List.mem_cons_self c t)), ?_⟩
      exact (matches_star_cls p t).mpr fun d hd => h d (List.mem_cons_of_mem c hd)

theorem matches_rep_cls (p : Nat → Bool) (n : Nat) (s : JSString) :
    Matches (rep n (cls p)) s ↔ s.length = n ∧ ∀ c ∈ s, p c = true := by
  induction n generalizing s with
  | zero =>
    simp only [rep]
    constructor
    · intro h
      cases h
      simp
    · rintro ⟨hl, _⟩
      rw [List.length_eq_zero.mp hl]
      exact Matches.eps
  | succ n ih =>
    simp only [rep]
    rw [matches_seq_iff]
    constructor
    · rintro ⟨u, v, rfl, hu, hv⟩
      obtain ⟨c, rfl, hp⟩ := (matches_cls_iff p _).mp hu
      obtain ⟨hl, hall⟩ := (ih v).mp hv
      refine ⟨by simp [hl], ?_⟩
      intro d hd
      simp only [List.singleton_append, List.mem_cons] at hd
      rcases hd with rfl | hd
      · exact hp
      · exact hall d hd
    · rintro ⟨hl, h⟩
      cases s with
      | nil => simp at hl
      | cons c t =>
        refine ⟨[c], t, rfl, Matches.cls (h c (List.mem_cons_self c t)), ?_⟩
        refine (ih t).mpr ⟨by simpa using hl, ?_⟩
        exact fun d hd => h d (List.mem_cons_of_mem c hd)

theorem matches_atLeast_cls (p : Nat → Bool) (n : Nat) (s : JSString) :
    Matches (atLeast n (cls p)) s ↔ n ≤ s.length ∧ ∀ c ∈ s, p c = true := by
  unfold atLeast
  rw [matches_seq_iff]
  constructor
  · rintro ⟨u, v, rfl, hu, hv⟩
    obtain ⟨hl, hall⟩ := (matches_rep_cls p n u).mp hu
    have hall2 := (matches_star_cls p v).mp hv
    refine ⟨by simp [hl], ?_⟩
    intro c hc
    rcases List.mem_append.mp hc with h | h
    · exact hall c h
    · exact hall2 c h
  · rintro ⟨hl, h⟩
    refine ⟨s.take n, s.drop n, (List.take_append_drop n s).symm, ?_, ?_⟩
    · refine (matches_rep_cls p n _).mpr ⟨by simp [hl], ?_⟩
      exact fun c hc => h c (List.mem_of_mem_take hc)
    · exact (matches_star_cls p _).mpr fun c hc => h c (List.mem_of_mem_drop hc)

end Regex

/-- The pattern of `validateName` accepts the non-empty strings of letters and spaces. -/
theorem namePattern_test (s : JSString) :
    namePattern.test s = true ↔ s ≠ [] ∧ ∀ c ∈ s, (isLetter c || c == 32) = true := by
  rw [Regex.test_iff]
  exact Regex.matches_plus_cls _ s

/-- The pattern of `validatePhone` accepts the strings of exactly ten digits. -/
theorem phonePattern_test (s : JSString) :
    phonePattern.test s = true ↔ s.length = 10 ∧ ∀ c ∈ s, isDigit c = true := by
  rw [Regex.test_iff]
  exact Regex.matches_rep_cls _ 10 s

/-- The name pattern of the specification accepts the strings of at least five
letters and spaces. -/
theorem specNamePattern_test (s : JSString) :
    specNamePattern.test s = true ↔
      5 ≤ s.length ∧ ∀ c ∈ s, (isLetter c || c == 32) = true := by
  rw [Regex.test_iff]
  exact Regex.matches_atLeast_cls _ 5 s

/-! ## Trimming -/

theorem trimStart_final (s : JSString) : trimStart s <:+ s :=
  List.dropWhile_suffix isWhiteSpace

theorem trimEnd_initial (s : JSString) : trimEnd s <+: s := by
  unfold trimEnd
  have h := List.dropWhile_suffix isWhiteSpace (l := s.reverse)
  have h2 := List.reverse_prefix.mpr h
  simpa using h2

theorem mem_of_mem_trim {s : JSString} {c : Nat} (h : c ∈ trim s) : c ∈ s :=
  (trimStart_final s).subset ((trimEnd_initial (trimStart s)).subset h)

theorem trim_length_le (s : JSString) : (trim s).length ≤ s.length :=
  Nat.le_trans (trimEnd_initial (trimStart s)).length_le (trimStart_final s).length_le

theorem trimStart_append_of_ws (u s : JSString) (hu : ∀ c ∈ u, isWhiteSpace c = true) :
    trimStart (u ++ s) = trimStart s := by
  induction u with
  | nil => rfl
  | cons c u ih =>
    have hc : isWhiteSpace c = true := hu c (List.mem_cons_self c u)
    have : trimStart (c :: (u ++ s)) = trimStart (u ++ s) := by
      simp [trimStart, List.dropWhile_cons, hc]
    rw [List.cons_append, this]
    exact ih fun d hd => hu d (List.mem_cons_of_mem c hd)

theorem trimStart_eq_nil_of_ws (u : JSString) (hu : ∀ c ∈ u, isWhiteSpace c = true) :
    trimStart u = [] := by
  have := trimStart_append_of_ws u [] hu
  simpa [trimStart] using this

theorem trimStart_append_right (s v : JSString) (hs : ∃ c ∈ s, isWhiteSpace c = false) :
    trimStart (s ++ v) = trimStart s ++ v := by
  induction s with
  | nil => simp at hs
  | cons c s ih =>
    by_cases hc : isWhiteSpace c = true
    · have h1 : trimStart (c :: s ++ v) = trimStart (s ++ v) := by
        simp [trimStart, List.dropWhile_cons, hc]
      have h2 : trimStart (c :: s) = trimStart s := by
        simp [trimStart, List.dropWhile_cons, hc]
      rw [h1, h2]
      apply ih
      obtain ⟨d, hd, hdw⟩ := hs
      rcases List.mem_cons.mp hd with rfl | hd
      · rw [hc] at hdw; cases hdw
      · exact ⟨d, hd, hdw⟩
    · simp [trimStart, List.dropWhile_cons, hc]

theorem trimEnd_append_of_ws (s v : JSString) (hv : ∀ c ∈ v, isWhiteSpace c = true) :
    trimEnd (s ++ v) = trimEnd s := by
  unfold trimEnd
  rw [List.reverse_append]
  have := trimStart_append_of_ws v.reverse s.reverse (by simpa using hv)
  unfold trimStart at this
  rw [this]

/-- Trimming ignores whitespace added in front of and behind a string. -/
theorem trim_pad (u s v : JSString) (hu : ∀ c ∈ u, isWhiteSpace c = true)
    (hv : ∀ c ∈ v, isWhiteSpace c = true) : trim (u ++ s ++ v) = trim s := by
  unfold trim
  rw [List.append_assoc, trimStart_append_of_ws u (s ++ v) hu]
  by_cases hs : ∃ c ∈ s, isWhiteSpace c = false
  · rw [trimStart_append_right s v hs, trimEnd_append_of_ws _ v hv]
  · have hs1 : ∀ c ∈ s, isWhiteSpace c = true := by
      intro c hc
      by_contra hcon
      exact hs ⟨c, hc, by simpa using hcon⟩
    have h1 : trimStart (s ++ v) = [] := by
      apply trimStart_eq_nil_of_ws
      intro c hc
      rcases List.mem_append.mp hc with h | h
      · exact hs1 c h
      · exact hv c h
    rw [h1, trimStart_eq_nil_of_ws s hs1]

/-! ## The validators: what they read and what they change -/

theorem validateName_frame (w : World) :
    (validateName w).2.fullName.value = w.fullName.value ∧
    (validateName w).2.email = w.email ∧ (validateName w).2.phone = w.phone ∧
    (validateName w).2.password = w.password ∧
    (validateName w).2.confirmPassword = w.confirmPassword ∧
    (validateName w).2.storage = w.storage ∧ (validateName w).2.timers = w.timers ∧
    (validateName w).2.alerts = w.alerts := by
  unfold validateName
  simp only
  split_ifs <;> simp [showError, clearError, setValid]

theorem validateEmail_frame (w : World) :
    (validateEmail w).2.fullName = w.fullName ∧
    (validateEmail w).2.email.value = w.email.value ∧ (validateEmail w).2.phone = w.phone ∧
    (validateEmail w).2.password = w.password ∧
    (validateEmail w).2.confirmPassword = w.confirmPassword ∧
    (validateEmail w).2.storage = w.storage ∧ (validateEmail w).2.timers = w.timers ∧
    (validateEmail w).2.alerts = w.alerts := by
  unfold validateEmail
  simp only
  split_ifs <;> simp [showError, clearError, setValid]

theorem validatePhone_frame (w : World) :
    (validatePhone w).2.fullName = w.fullName ∧
    (validatePhone w).2.email = w.email ∧ (validatePhone w).2.phone.value = w.phone.value ∧
    (validatePhone w).2.password = w.password ∧
    (validatePhone w).2.confirmPassword = w.confirmPassword ∧
    (validatePhone w).2.storage = w.storage ∧ (validatePhone w).2.timers = w.timers ∧
    (validatePhone w).2.alerts = w.alerts := by
  unfold validatePhone
  simp only
  split_ifs <;> simp [showError, clearError, setValid]

theorem validatePassword_frame (U : JSString → JSString) (w : World) :
    (validatePassword U w).2.fullName = w.fullName ∧
    (validatePassword U w).2.email = w.email ∧ (validatePassword U w).2.phone = w.phone ∧
    (validatePassword U w).2.password.value = w.password.value ∧
    (validatePassword U w).2.confirmPassword = w.confirmPassword ∧
    (validatePassword U w).2.storage = w.storage ∧
    (validatePassword U w).2.timers = w.timers ∧
    (validatePassword U w).2.alerts = w.alerts := by
  unfold validatePassword
  simp only
  split_ifs <;> simp [showError, clearError, setValid]

theorem validateConfirmPassword_frame (w : World) :
    (validateConfirmPassword w).2.fullName = w.fullName ∧
    (validateConfirmPassword w).2.email = w.email ∧
    (validateConfirmPassword w).2.phone = w.phone ∧
    (validateConfirmPassword w).2.password = w.password ∧
    (validateConfirmPassword w).2.confirmPassword.value = w.confirmPassword.value ∧
    (validateConfirmPassword w).2.storage = w.storage ∧
    (validateConfirmPassword w).2.timers = w.timers ∧
    (validateConfirmPassword w).2.alerts = w.alerts := by
  unfold validateConfirmPassword
  split_ifs <;> simp [showError, clearError, setValid]

theorem validateName_congr (w v : World) (h : v.fullName = w.fullName) :
    (validateName v).1 = (validateName w).1 ∧
    (validateName v).2.fullName = (validateName w).2.fullName := by
  unfold validateName
  simp only [h]
  split_ifs <;> simp

theorem validateEmail_congr (w v : World) (h : v.email = w.email) :
    (validateEmail v).1 = (validateEmail w).1 ∧
    (validateEmail v).2.email = (validateEmail w).2.email := by
  unfold validateEmail
  simp only [h]
  split_ifs <;> simp

theorem validatePhone_congr (w v : World) (h : v.phone = w.phone) :
    (validatePhone v).1 = (validatePhone w).1 ∧
    (validatePhone v).2.phone = (validatePhone w).2.phone := by
  unfold validatePhone
  simp only [h]
  split_ifs <;> simp

theorem validatePassword_congr (U : JSString → JSString) (w v : World)
    (h : v.password = w.password) (hn : v.fullName.value = w.fullName.value) :
    (validatePassword U v).1 = (validatePassword U w).1 ∧
    (validatePassword U v).2.password = (validatePassword U w).2.password := by
  unfold validatePassword
  simp only [h, hn]
  split_ifs <;> simp

theorem validateConfirmPassword_congr (w v : World)
    (h : v.confirmPassword = w.confirmPassword)
    (hp : v.password.value = w.password.value) :
    (validateConfirmPassword v).1 = (validateConfirmPassword w).1 ∧
    (validateConfirmPassword v).2.confirmPassword =
      (validateConfirmPassword w).2.confirmPassword := by
  unfold validateConfirmPassword
  simp only [h, hp]
  split_ifs <;> simp

/-! ## The submit listener -/

/-- In the chain of validator calls of the submit listener every validator sees the
field values the listener started with: each call returns what it returns on the
initial state, and leaves its own input as it would from the initial state. -/
theorem chain_spec (U : JSString → JSString) (w : World) :
    ((validateEmail (validateName w).2).1 = (validateEmail w).1 ∧
     (validatePhone (validateEmail (validateName w).2).2).1 = (validatePhone w).1 ∧
     (validatePassword U (validatePhone (validateEmail (validateName w).2).2).2).1 =
       (validatePassword U w).1 ∧
     (validateConfirmPassword
       (validatePassword U (validatePhone (validateEmail (validateName w).2).2).2).2).1 =
       (validateConfirmPassword w).1) ∧
    ((afterValidators U w).fullName = (validateName w).2.fullName ∧
     (afterValidators U w).email = (validateEmail w).2.email ∧
     (afterValidators U w).phone = (validatePhone w).2.phone ∧
     (afterValidators U w).password = (validatePassword U w).2.password ∧
     (afterValidators U w).confirmPassword = (validateConfirmPassword w).2.confirmPassword ∧
     (afterValidators U w).storage = w.storage ∧
     (afterValidators U w).timers = w.timers ∧
     (afterValidators U w).alerts = w.alerts) := by
  obtain ⟨n1, n2, n3, n4, n5, n6, n7, n8⟩ := validateName_frame w
  obtain ⟨e1, e2, e3, e4, e5, e6, e7, e8⟩ := validateEmail_frame (validateName w).2
  obtain ⟨p1, p2, p3, p4, p5, p6, p7, p8⟩ :=
    validatePhone_frame (validateEmail (validateName w).2).2
  obtain ⟨q1, q2, q3, q4, q5, q6, q7, q8⟩ :=
    validatePassword_frame U (validatePhone (validateEmail (validateName w).2).2).2
  obtain ⟨c1, c2, c3, c4, c5, c6, c7, c8⟩ :=
    validateConfirmPassword_frame
      (validatePassword U (validatePhone (validateEmail (validateName w).2).2).2).2
  have he := validateEmail_congr w (validateName w).2 n2
  have hp := validatePhone_congr w (validateEmail (validateName w).2).2 (e3.trans n3)
  have hq := validatePassword_congr U w (validatePhone (validateEmail (validateName w).2).2).2
    (p4.trans (e4.trans n4)) (by rw [p1, e1, n1])
  have hc := validateConfirmPassword_congr w
    (validatePassword U (validatePhone (validateEmail (validateName w).2).2).2).2
    (q5.trans (p5.trans (e5.trans n5))) (q4.trans (by rw [p4, e4, n4]))
  unfold afterValidators
  refine ⟨⟨he.1, hp.1, hq.1, hc.1⟩, ?_, ?_, ?_, ?_, ?_, ?_, ?_, ?_⟩
  · exact c1.trans (q1.trans (p1.trans e1))
  · exact c2.trans (q2.trans (p2.trans he.2))
  · exact c3.trans (q3.trans hp.2)
  · exact c4.trans hq.2
  · exact hc.2
  · exact c6.trans (q6.trans (p6.trans (e6.trans n6)))
  · exact c7.trans (q7.trans (p7.trans (e7.trans n7)))
  · exact c8.trans (q8.trans (p8.trans (e8.trans n8)))

/-- The submit listener written out: the five calls, then the branch on `valid`. -/
theorem onSubmit_unfold (U : JSString → JSString) (w : World) :
    onSubmit U w =
      if ((validateName w).1 && (validateEmail (validateName w).2).1 &&
          (validatePhone (validateEmail (validateName w).2).2).1 &&
          (validatePassword U (validatePhone (validateEmail (validateName w).2).2).2).1 &&
          (validateConfirmPassword (validatePassword U
            (validatePhone (validateEmail (validateName w).2).2).2).2).1) = true then
        match loadUsers (afterValidators U w).storage with
        | .error e => ⟨afterValidators U w, some e⟩
        | .ok users =>
          match push users (.string (trim (afterValidators U w).fullName.value)) with
          | .error e => ⟨afterValidators U w, some e⟩
          | .ok users1 =>
            ⟨clearAllErrors (resetForm
              { afterValidators U w with
                storage := .json (restore users1)
                timers := (afterValidators U w).timers + 1
                alerts := (afterValidators U w).alerts ++
                  [js "Form submitted successfully!"] }), none⟩
      else ⟨afterValidators U w, none⟩ := by
  unfold onSubmit afterValidators
  dsimp only

/-- The submit listener, with the verdicts of the five validators read off the initial
state. -/
theorem onSubmit_eq (U : JSString → JSString) (w : World) :
    onSubmit U w =
      if allValid U w = true then
        match loadUsers w.storage with
        | .error e => ⟨afterValidators U w, some e⟩
        | .ok users =>
          match push users (.string (trim w.fullName.value)) with
          | .error e => ⟨afterValidators U w, some e⟩
          | .ok users1 =>
            ⟨clearAllErrors (resetForm
              { afterValidators U w with
                storage := .json (restore users1)
                timers := w.timers + 1
                alerts := w.alerts ++ [js "Form submitted successfully!"] }), none⟩
      else ⟨afterValidators U w, none⟩ := by
  obtain ⟨⟨v2, v3, v4, v5⟩, a1, _, _, _, _, a6, a7, a8⟩ := chain_spec U w
  have hname : (afterValidators U w).fullName.value = w.fullName.value := by
    rw [a1]; exact (validateName_frame w).1
  rw [onSubmit_unfold, v2, v3, v4, v5, a6, a7, a8, hname]
  rfl

theorem restoreList_eq_map (xs : List JSValue) : restoreList xs = xs.map restore := by
  induction xs with
  | nil => rfl
  | cons x xs ih => simp [restoreList, ih]

theorem restore_array (xs : List JSValue) :
    restore (.array xs) = .array (xs.map restore) := by
  simp only [restore, restoreList_eq_map]

/-- Writing back an array with a name pushed to it: the old elements as `restore` gives
them, then the name. -/
theorem restore_push (xs : List JSValue) (n : JSString) :
    restore (.array (xs ++ [.string n])) = .array (xs.map restore ++ [.string n]) := by
  rw [restore_array, List.map_append]
  rfl

theorem asNames_append (xs : List JSValue) (L : List JSString) (n : JSString)
    (h : asNames xs = some L) : asNames (xs ++ [.string n]) = some (L ++ [n]) := by
  induction xs generalizing L with
  | nil =>
    simp only [asNames, Option.some.injEq] at h
    subst h
    simp [asNames]
  | cons x xs ih =>
    cases x with
    | string t =>
      simp only [asNames, Option.map_eq_some'] at h
      obtain ⟨L1, h1, rfl⟩ := h
      simp [asNames, ih L1 h1]
    | null => simp [asNames] at h
    | bool b => simp [asNames] at h
    | number z => simp [asNames] at h
    | array ys => simp [asNames] at h
    | object fs => simp [asNames] at h

/-- A store that holds a list of names loads as the array of those names. -/
theorem loadUsers_of_storedNames (st : Stored) (L : List JSString)
    (h : storedNames st = some L) :
    ∃ xs, loadUsers st = .ok (.array xs) ∧ asNames xs = some L := by
  cases st with
  | absent =>
    simp only [storedNames, Option.some.injEq] at h
    subst h
    exact ⟨[], rfl, rfl⟩
  | malformed => simp [storedNames] at h
  | json v =>
    cases v with
    | array xs => exact ⟨xs, rfl, h⟩
    | null => simp [storedNames] at h
    | bool b => simp [storedNames] at h
    | number z => simp [storedNames] at h
    | string t => simp [storedNames] at h
    | object fs => simp [storedNames] at h

theorem allValid_eq_false_iff (U : JSString → JSString) (w : World) :
    allValid U w = false ↔
      (validateName w).1 = false ∨ (validateEmail w).1 = false ∨
      (validatePhone w).1 = false ∨ (validatePassword U w).1 = false ∨
      (validateConfirmPassword w).1 = false := by
  unfold allValid
  simp only [Bool.and_eq_false_iff]
  tauto

theorem allValid_eq_true_iff (U : JSString → JSString) (w : World) :
    allValid U w = true ↔
      (validateName w).1 = true ∧ (validateEmail w).1 = true ∧
      (validatePhone w).1 = true ∧ (validatePassword U w).1 = true ∧
      (validateConfirmPassword w).1 = true := by
  unfold allValid
  simp only [Bool.and_eq_true]
  tauto

/-- A rejected submit ends after the five validator calls. -/
theorem onSubmit_rejected (U : JSString → JSString) (w : World)
    (h : allValid U w = false) : onSubmit U w = ⟨afterValidators U w, none⟩ := by
  rw [onSubmit_eq, h]
  rfl

/-- An accepted submit on a store that loads as an array appends the trimmed name. -/
theorem onSubmit_accepted (U : JSString → JSString) (w : World) (xs : List JSValue)
    (h : allValid U w = true) (hl : loadUsers w.storage = .ok (.array xs)) :
    onSubmit U w =
      ⟨clearAllErrors (resetForm
        { afterValidators U w with
          storage := .json (.array (xs.map restore ++ [.string (trim w.fullName.value)]))
          timers := w.timers + 1
          alerts := w.alerts ++ [js "Form submitted successfully!"] }), none⟩ := by
  rw [onSubmit_eq, h, hl]
  simp only [push, restore_push]
  rfl

theorem onSubmit_accepted_storage (U : JSString → JSString) (w : World)
    (xs : List JSValue) (h : allValid U w = true)
    (hl : loadUsers w.storage = .ok (.array xs)) :
    (onSubmit U w).world.storage =
      .json (.array (xs.map restore ++ [.string (trim w.fullName.value)])) := by
  rw [onSubmit_accepted U w xs h hl]
  simp only [clearAllErrors, resetForm]

theorem onSubmit_accepted_value (U : JSString → JSString) (w : World)
    (xs : List JSValue) (h : allValid U w = true)
    (hl : loadUsers w.storage = .ok (.array xs)) (f : FieldId) :
    ((onSubmit U w).world.get f).value = [] := by
  rw [onSubmit_accepted U w xs h hl]
  cases f <;> simp only [clearAllErrors, resetForm, World.get, clearError, defaultValue]

/-- An accepted submit whose load raises ends there, after the validator calls. -/
theorem onSubmit_load_error (U : JSString → JSString) (w : World) (e : JSError)
    (h : allValid U w = true) (hl : loadUsers w.storage = .error e) :
    onSubmit U w = ⟨afterValidators U w, some e⟩ := by
  rw [onSubmit_eq, h, hl]
  rfl

/-- An accepted submit whose `push` raises ends there, after the validator calls. -/
theorem onSubmit_push_error (U : JSString → JSString) (w : World) (v : JSValue)
    (e : JSError) (h : allValid U w = true) (hl : loadUsers w.storage = .ok v)
    (hp : push v (.string (trim w.fullName.value)) = .error e) :
    onSubmit U w = ⟨afterValidators U w, some e⟩ := by
  rw [onSubmit_eq, h, hl]
  simp only [if_true, hp]

/-- The validator calls of the submit listener keep every field value. -/
theorem afterValidators_value (U : JSString → JSString) (w : World) (f : FieldId) :
    ((afterValidators U w).get f).value = (w.get f).value := by
  obtain ⟨_, a1, a2, a3, a4, a5, _, _, _⟩ := chain_spec U w
  cases f
  · simp only [World.get, a1]; exact (validateName_frame w).1
  · simp only [World.get, a2]; exact (validateEmail_frame w).2.1
  · simp only [World.get, a3]; exact (validatePhone_frame w).2.2.1
  · simp only [World.get, a4]; exact (validatePassword_frame U w).2.2.2.1
  · simp only [World.get, a5]; exact (validateConfirmPassword_frame w).2.2.2.2.1

/-- After the validator calls of the submit listener every field shows what its own
validator makes of the values the listener started with. -/
theorem afterValidators_get (U : JSString → JSString) (w : World) (f : FieldId) :
    (afterValidators U w).get f = ((validateField U f w).2).get f := by
  obtain ⟨_, a1, a2, a3, a4, a5, _, _, _⟩ := chain_spec U w
  cases f
  · simp only [World.get, validateField, a1]
  · simp only [World.get, validateField, a2]
  · simp only [World.get, validateField, a3]
  · simp only [World.get, validateField, a4]
  · simp only [World.get, validateField, a5]

/-! ## The name field -/

theorem validateName_short (w : World) (h : (trim w.fullName.value).length < 5) :
    validateName w = (false, { w with
      fullName := showError w.fullName (js "Name must be at least 5 characters") }) := by
  unfold validateName
  simp only [if_pos h]

theorem validateName_badChars (w : World) (h : 5 ≤ (trim w.fullName.value).length)
    (ht : namePattern.test (trim w.fullName.value) = false) :
    validateName w = (false, { w with
      fullName := showError w.fullName (js "Name must contain only letters and spaces") }) := by
  unfold validateName
  simp only [if_neg (Nat.not_lt.mpr h), ht, Bool.not_false, if_true]

theorem validateName_pass (w : World) (h : 5 ≤ (trim w.fullName.value).length)
    (ht : namePattern.test (trim w.fullName.value) = true) :
    validateName w = (true, { w with fullName := clearError (setValid w.fullName) }) := by
  unfold validateName
  simp [Nat.not_lt.mpr h, ht]

/-- For a string of length at least five the pattern of the script fails exactly when
some code unit is neither a letter nor a space. -/
theorem namePattern_false_iff (s : JSString) (h : 5 ≤ s.length) :
    namePattern.test s = false ↔ ∃ c ∈ s, isLetter c = false ∧ c ≠ 32 := by
  have hne : s ≠ [] := by
    intro h0
    rw [h0] at h
    simp at h
  constructor
  · intro hf
    by_contra hcon
    have hall : ∀ c ∈ s, (isLetter c || c == 32) = true := by
      intro c hc
      by_contra hbad
      apply hcon
      refine ⟨c, hc, ?_⟩
      simpa using hbad
    rw [(namePattern_test s).mpr ⟨hne, hall⟩] at hf
    cases hf
  · rintro ⟨c, hc, hl, h32⟩
    by_contra hcon
    have ht : namePattern.test s = true := by simpa using hcon
    have := ((namePattern_test s).mp ht).2 c hc
    simp [hl, h32] at this

theorem validateName_fst_iff (w : World) :
    (validateName w).1 = true ↔
      5 ≤ (trim w.fullName.value).length ∧
        ∀ c ∈ trim w.fullName.value, isLetter c = true ∨ c = 32 := by
  by_cases h : (trim w.fullName.value).length < 5
  · rw [validateName_short w h]
    constructor
    · intro hf
      cases hf
    · rintro ⟨h5, _⟩
      omega
  · have h5 : 5 ≤ (trim w.fullName.value).length := Nat.not_lt.mp h
    cases ht : namePattern.test (trim w.fullName.value) with
    | false =>
      rw [validateName_badChars w h5 ht]
      constructor
      · intro hf
        cases hf
      · rintro ⟨_, hall⟩
        obtain ⟨c, hc, hl, h32⟩ := (namePattern_false_iff _ h5).mp ht
        rcases hall c hc with h1 | h1
        · rw [h1] at hl
          cases hl
        · exact absurd h1 h32
    | true =>
      rw [validateName_pass w h5 ht]
      refine ⟨fun _ => ⟨h5, ?_⟩, fun _ => rfl⟩
      intro c hc
      have := ((namePattern_test _).mp ht).2 c hc
      simpa using this

/-! ## The password, confirm-password and phone fields -/

theorem validatePassword_fst_iff (U : JSString → JSString) (w : World) :
    (validatePassword U w).1 = true ↔
      8 ≤ w.password.value.length ∧
      toLowerCase U w.password.value ≠ js "password" ∧
      toLowerCase U w.password.value ≠ toLowerCase U (trim w.fullName.value) := by
  unfold validatePassword
  simp only
  split_ifs with h
  · simp only [Bool.or_eq_true, decide_eq_true_eq, beq_iff_eq] at h
    simp only [Bool.false_eq_true, false_iff, not_and, not_not]
    intro h8 hp
    rcases h with (h | h) | h
    · omega
    · exact absurd h hp
    · exact h
  · simp only [Bool.or_eq_true, decide_eq_true_eq, beq_iff_eq, not_or, not_lt] at h
    simp only [true_iff]
    exact ⟨h.1.1, h.1.2, h.2⟩

theorem validateConfirmPassword_fst_iff (w : World) :
    (validateConfirmPassword w).1 = true ↔
      w.confirmPassword.value = w.password.value ∧ w.password.value ≠ [] := by
  unfold validateConfirmPassword
  split_ifs with h
  · simp only [Bool.or_eq_true, bne_iff_ne, ne_eq, beq_iff_eq, List.length_eq_zero] at h
    simp only [Bool.false_eq_true, false_iff, not_and, not_not]
    intro he
    rcases h with h | h
    · exact absurd he h
    · exact h
  · simp only [Bool.or_eq_true, bne_iff_ne, ne_eq, beq_iff_eq, List.length_eq_zero,
      not_or, not_not] at h
    simp only [true_iff]
    exact h

theorem validatePhone_fst_iff (w : World) :
    (validatePhone w).1 = true ↔
      (trim w.phone.value).length = 10 ∧
      (∀ c ∈ trim w.phone.value, isDigit c = true) ∧
      trim w.phone.value ≠ js "1234567890" := by
  unfold validatePhone
  simp only
  split_ifs with h
  · simp only [Bool.or_eq_true, Bool.not_eq_true', beq_iff_eq] at h
    simp only [Bool.false_eq_true, false_iff, not_and, not_not]
    intro hl hd
    rcases h with h | h
    · rw [(phonePattern_test _).mpr ⟨hl, hd⟩] at h
      cases h
    · exact h
  · simp only [Bool.or_eq_true, Bool.not_eq_true', beq_iff_eq, not_or,
      Bool.not_eq_false] at h
    simp only [true_iff]
    exact ⟨((phonePattern_test _).mp h.1).1, ((phonePattern_test _).mp h.1).2, h.2⟩

theorem lt_of_lowerAscii_lt {c : Nat} (h : lowerAscii c < 128) : c < 128 := by
  unfold lowerAscii at h
  split_ifs at h
  · omega
  · exact h

/-- A string that lower-cases code unit by code unit to an ASCII string is ASCII, so
`toLowerCase` lower-cases it code unit by code unit. -/
theorem toLowerCase_of_map (U : JSString → JSString) (p t : JSString)
    (ht : ∀ c ∈ t, c < 128) (h : p.map lowerAscii = t) : toLowerCase U p = t := by
  have hp : p.all (fun c => decide (c < 128)) = true := by
    rw [List.all_eq_true]
    intro c hc
    have : lowerAscii c ∈ t := by
      rw [← h]
      exact List.mem_map_of_mem lowerAscii hc
    simpa using lt_of_lowerAscii_lt (ht _ this)
  unfold toLowerCase
  rw [if_pos hp, h]

/-! ## The email field -/

theorem not_whiteSpace_of_isLetter {c : Nat} (h : isLetter c = true) :
    isWhiteSpace c = false := by
  simp only [isLetter, isUpper, isLower, Bool.or_eq_true, Bool.and_eq_true,
    decide_eq_true_eq] at h
  simp only [isWhiteSpace, Bool.or_eq_false_iff, Bool.and_eq_false_iff, beq_eq_false_iff_ne,
    ne_eq, decide_eq_false_iff_not, not_le]
  omega

theorem ne_at_of_isLetter {c : Nat} (h : isLetter c = true) : c ≠ 64 := by
  simp only [isLetter, isUpper, isLower, Bool.or_eq_true, Bool.and_eq_true,
    decide_eq_true_eq] at h
  omega

/-- The pattern of `validateEmail` accepts exactly the strings `loc@dom.tld` in which
`loc` and `dom` are non-empty and hold neither `@` nor whitespace, and `tld` is two or
more letters. -/
theorem emailPattern_test (s : JSString) :
    emailPattern.test s = true ↔
      ∃ loc dom tld, s = loc ++ 64 :: (dom ++ 46 :: tld) ∧
        (loc ≠ [] ∧ ∀ c ∈ loc, c ≠ 64 ∧ isWhiteSpace c = false) ∧
        (dom ≠ [] ∧ ∀ c ∈ dom, c ≠ 64 ∧ isWhiteSpace c = false) ∧
        2 ≤ tld.length ∧ ∀ c ∈ tld, isLetter c = true := by
  rw [Regex.test_iff]
  unfold emailPattern Regex.chr
  simp only [Regex.matches_seq_iff, Regex.matches_plus_cls, Regex.matches_cls_iff,
    Regex.matches_atLeast_cls, Bool.not_eq_true', Bool.or_eq_false_iff,
    beq_eq_false_iff_ne, ne_eq, beq_iff_eq]
  constructor
  · rintro ⟨loc, r1, rfl, hloc, at1, r2, rfl, ⟨c, rfl, rfl⟩, dom, r3, rfl, hdom, dot, tld,
      rfl, ⟨d, rfl, rfl⟩, htld⟩
    exact ⟨loc, dom, tld, rfl, hloc, hdom, htld⟩
  · rintro ⟨loc, dom, tld, rfl, hloc, hdom, htld⟩
    exact ⟨loc, _, rfl, hloc, [64], _, rfl, ⟨64, rfl, rfl⟩, dom, _, rfl, hdom, [46], tld,
      rfl, ⟨46, rfl, rfl⟩, htld⟩

theorem validateEmail_fst_eq (w : World) :
    (validateEmail w).1 = emailPattern.test (trim w.email.value) := by
  unfold validateEmail
  simp only
  split_ifs with h
  · simpa using h
  · simpa using h

theorem validateEmail_fail (w : World) (h : (validateEmail w).1 = false) :
    validateEmail w =
      (false, { w with email := showError w.email (js "Enter a valid email address") }) := by
  rw [validateEmail_fst_eq] at h
  unfold validateEmail
  simp only [h, Bool.not_false, if_true]

/-! ## One validator at a time -/

/-- A validator changes the shown state of its own input and nothing else. -/
theorem validateField_frame (U : JSString → JSString) (f : FieldId) (w : World) :
    (∀ g, g ≠ f → ((validateField U f w).2).get g = w.get g) ∧
    (∀ g, (((validateField U f w).2).get g).value = (w.get g).value) ∧
    (validateField U f w).2.storage = w.storage ∧
    (validateField U f w).2.timers = w.timers ∧
    (validateField U f w).2.alerts = w.alerts ∧
    (validateField U f w).2.userCount = w.userCount ∧
    (validateField U f w).2.userList = w.userList ∧
    (validateField U f w).2.focus = w.focus := by
  cases f
  · simp only [validateField]
    unfold validateName
    simp only
    split_ifs <;> refine ⟨?_, ?_, rfl, rfl, rfl, rfl, rfl, rfl⟩ <;> intro g <;> cases g <;>
      simp [World.get, showError, clearError, setValid]
  · simp only [validateField]
    unfold validateEmail
    simp only
    split_ifs <;> refine ⟨?_, ?_, rfl, rfl, rfl, rfl, rfl, rfl⟩ <;> intro g <;> cases g <;>
      simp [World.get, showError, clearError, setValid]
  · simp only [validateField]
    unfold validatePhone
    simp only
    split_ifs <;> refine ⟨?_, ?_, rfl, rfl, rfl, rfl, rfl, rfl⟩ <;> intro g <;> cases g <;>
      simp [World.get, showError, clearError, setValid]
  · simp only [validateField]
    unfold validatePassword
    simp only
    split_ifs <;> refine ⟨?_, ?_, rfl, rfl, rfl, rfl, rfl, rfl⟩ <;> intro g <;> cases g <;>
      simp [World.get, showError, clearError, setValid]
  · simp only [validateField]
    unfold validateConfirmPassword
    split_ifs <;> refine ⟨?_, ?_, rfl, rfl, rfl, rfl, rfl, rfl⟩ <;> intro g <;> cases g <;>
      simp [World.get, showError, clearError, setValid]

theorem validateField_userShown (U : JSString → JSString) (f : FieldId) (w : World) :
    (validateField U f w).2.userShown = w.userShown := by
  cases f
  · simp only [validateField]
    unfold validateName
    simp only
    split_ifs <;> rfl
  · simp only [validateField]
    unfold validateEmail
    simp only
    split_ifs <;> rfl
  · simp only [validateField]
    unfold validatePhone
    simp only
    split_ifs <;> rfl
  · simp only [validateField]
    unfold validatePassword
    simp only
    split_ifs <;> rfl
  · simp only [validateField]
    unfold validateConfirmPassword
    split_ifs <;> rfl

theorem onInput_eq (U : JSString → JSString) (f : FieldId) (w : World) :
    onInput U f w = (validateField U f w).2 := by
  cases f <;> rfl

/-! ## Verdicts depend on the field values only -/

theorem validateName_fst_congr (w v : World) (h : v.fullName.value = w.fullName.value) :
    (validateName v).1 = (validateName w).1 := by
  rw [Bool.eq_iff_iff, validateName_fst_iff, validateName_fst_iff, h]

theorem validateEmail_fst_congr (w v : World) (h : v.email.value = w.email.value) :
    (validateEmail v).1 = (validateEmail w).1 := by
  rw [validateEmail_fst_eq, validateEmail_fst_eq, h]

theorem validatePhone_fst_congr (w v : World) (h : v.phone.value = w.phone.value) :
    (validatePhone v).1 = (validatePhone w).1 := by
  rw [Bool.eq_iff_iff, validatePhone_fst_iff, validatePhone_fst_iff, h]

theorem validatePassword_fst_congr (U : JSString → JSString) (w v : World)
    (h : v.password.value = w.password.value)
    (hn : v.fullName.value = w.fullName.value) :
    (validatePassword U v).1 = (validatePassword U w).1 := by
  rw [Bool.eq_iff_iff, validatePassword_fst_iff, validatePassword_fst_iff, h, hn]

theorem validateConfirmPassword_fst_congr (w v : World)
    (h : v.confirmPassword.value = w.confirmPassword.value)
    (hp : v.password.value = w.password.value) :
    (validateConfirmPassword v).1 = (validateConfirmPassword w).1 := by
  rw [Bool.eq_iff_iff, validateConfirmPassword_fst_iff, validateConfirmPassword_fst_iff,
    h, hp]

theorem allValid_congr (U : JSString → JSString) (w v : World)
    (h : ∀ g, (v.get g).value = (w.get g).value) : allValid U v = allValid U w := by
  unfold allValid
  rw [validateName_fst_congr w v (h .fullName), validateEmail_fst_congr w v (h .email),
    validatePhone_fst_congr w v (h .phone),
    validatePassword_fst_congr U w v (h .password) (h .fullName),
    validateConfirmPassword_fst_congr w v (h .confirmPassword) (h .password)]

/-- With an empty name field the form is not valid. -/
theorem allValid_of_empty_name (U : JSString → JSString) (w : World)
    (h : w.fullName.value = []) : allValid U w = false := by
  have h1 : (validateName w).1 = false := by
    rw [validateName_short w (by rw [h]; decide)]
  rw [allValid_eq_false_iff]
  exact Or.inl h1

/-- The validator calls of the submit listener leave the rendered count and list and
the focus alone. -/
theorem afterValidators_rendering (U : JSString → JSString) (w : World) :
    (afterValidators U w).userCount = w.userCount ∧
    (afterValidators U w).userList = w.userList ∧
    (afterValidators U w).focus = w.focus := by
  obtain ⟨_, _, _, _, _, n6, n7, n8⟩ := validateField_frame U .fullName w
  obtain ⟨_, _, _, _, _, e6, e7, e8⟩ :=
    validateField_frame U .email (validateField U .fullName w).2
  obtain ⟨_, _, _, _, _, p6, p7, p8⟩ :=
    validateField_frame U .phone
      (validateField U .email (validateField U .fullName w).2).2
  obtain ⟨_, _, _, _, _, q6, q7, q8⟩ :=
    validateField_frame U .password (validateField U .phone
      (validateField U .email (validateField U .fullName w).2).2).2
  obtain ⟨_, _, _, _, _, c6, c7, c8⟩ :=
    validateField_frame U .confirmPassword (validateField U .password (validateField U .phone
      (validateField U .email (validateField U .fullName w).2).2).2).2
  simp only [validateField] at n6 n7 n8 e6 e7 e8 p6 p7 p8 q6 q7 q8 c6 c7 c8
  unfold afterValidators
  exact ⟨c6.trans (q6.trans (p6.trans (e6.trans n6))),
    c7.trans (q7.trans (p7.trans (e7.trans n7))),
    c8.trans (q8.trans (p8.trans (e8.trans n8)))⟩

theorem afterValidators_userShown (U : JSString → JSString) (w : World) :
    (afterValidators U w).userShown = w.userShown := by
  have n := validateField_userShown U .fullName w
  have e := validateField_userShown U .email (validateField U .fullName w).2
  have p := validateField_userShown U .phone
    (validateField U .email (validateField U .fullName w).2).2
  have q := validateField_userShown U .password (validateField U .phone
    (validateField U .email (validateField U .fullName w).2).2).2
  have c := validateField_userShown U .confirmPassword (validateField U .password
    (validateField U .phone (validateField U .email (validateField U .fullName w).2).2).2).2
  simp only [validateField] at n e p q c
  unfold afterValidators
  exact c.trans (q.trans (p.trans (e.trans n)))

theorem World.eq_of_fields (a b : World) (h1 : a.fullName = b.fullName)
    (h2 : a.email = b.email) (h3 : a.phone = b.phone) (h4 : a.password = b.password)
    (h5 : a.confirmPassword = b.confirmPassword) (h6 : a.storage = b.storage)
    (h7 : a.timers = b.timers) (h8 : a.alerts = b.alerts)
    (h9 : a.userCount = b.userCount) (h10 : a.userList = b.userList)
    (h11 : a.focus = b.focus) (h12 : a.userShown = b.userShown) : a = b := by
  cases a
  cases b
  simp only [World.mk.injEq]
  exact ⟨h1, h2, h3, h4, h5, h6, h7, h8, h9, h10, h11, h12⟩

/-- What the submit listener does is one of three things: it rejects the form; it
finds the form valid and raises while reading or extending the list; or it appends the
trimmed name, queues the refresh, alerts, resets the form and clears the marks. -/
theorem onSubmit_cases (U : JSString → JSString) (w : World) :
    (allValid U w = false ∧ onSubmit U w = ⟨afterValidators U w, none⟩) ∨
    (allValid U w = true ∧ (¬ ∃ xs, loadUsers w.storage = .ok (.array xs)) ∧
      ∃ e, onSubmit U w = ⟨afterValidators U w, some e⟩) ∨
    (allValid U w = true ∧ ∃ xs, loadUsers w.storage = .ok (.array xs) ∧
      onSubmit U w =
        ⟨clearAllErrors (resetForm
          { afterValidators U w with
            storage := .json (.array (xs.map restore ++ [.string (trim w.fullName.value)]))
            timers := w.timers + 1
            alerts := w.alerts ++ [js "Form submitted successfully!"] }), none⟩) := by
  by_cases hv : allValid U w = true
  · right
    cases hl : loadUsers w.storage with
    | error e =>
      left
      refine ⟨hv, ?_, e, onSubmit_load_error U w e hv hl⟩
      rintro ⟨xs, hx⟩
      cases hx
    | ok v =>
      cases v with
      | array xs =>
        right
        exact ⟨hv, xs, rfl, onSubmit_accepted U w xs hv hl⟩
      | null =>
        left
        refine ⟨hv, ?_, _, onSubmit_push_error U w _ .typeError hv hl rfl⟩
        rintro ⟨xs, hx⟩
        cases hx
      | bool b =>
        left
        refine ⟨hv, ?_, _, onSubmit_push_error U w _ .typeError hv hl rfl⟩
        rintro ⟨xs, hx⟩
        cases hx
      | number z =>
        left
        refine ⟨hv, ?_, _, onSubmit_push_error U w _ .typeError hv hl rfl⟩
        rintro ⟨xs, hx⟩
        cases hx
      | string t =>
        left
        refine ⟨hv, ?_, _, onSubmit_push_error U w _ .typeError hv hl rfl⟩
        rintro ⟨xs, hx⟩
        cases hx
      | object fs =>
        left
        refine ⟨hv, ?_, _, onSubmit_push_error U w _ .typeError hv hl rfl⟩
        rintro ⟨xs, hx⟩
        cases hx
  · left
    have hf : allValid U w = false := by simpa using hv
    exact ⟨hf, onSubmit_rejected U w hf⟩

/-- A submit that does not append leaves the store as it was. -/
theorem onSubmit_storage_of_rejected (U : JSString → JSString) (w : World)
    (h : allValid U w = false ∨ ¬ ∃ xs, loadUsers w.storage = .ok (.array xs)) :
    (onSubmit U w).world.storage = w.storage := by
  obtain ⟨_, _, _, _, _, _, a6, _, _⟩ := chain_spec U w
  rcases onSubmit_cases U w with ⟨_, he⟩ | ⟨_, _, e, he⟩ | ⟨hv, xs, hl, _⟩
  · rw [he]
    exact a6
  · rw [he]
    exact a6
  · rcases h with h | h
    · rw [hv] at h
      cases h
    · exact absurd ⟨xs, hl⟩ h

/-! ## Enter on the last field -/

theorem validateConfirmPassword_idem (w : World) :
    (validateConfirmPassword (validateConfirmPassword w).2).2.confirmPassword =
      (validateConfirmPassword w).2.confirmPassword := by
  unfold validateConfirmPassword
  split_ifs <;> simp_all [showError, clearError, setValid] <;>
    cases w.confirmPassword.errorText <;> rfl

/-- A submit right after the confirm-password validator ran is the submit itself. -/
theorem onSubmit_after_confirm (U : JSString → JSString) (w : World) :
    onSubmit U (validateConfirmPassword w).2 = onSubmit U w := by
  obtain ⟨c1, c2, c3, c4, c5, c6, c7, c8⟩ := validateConfirmPassword_frame w
  obtain ⟨_, _, _, _, _, r1, r2, r3⟩ := validateField_frame U .confirmPassword w
  simp only [validateField] at r1 r2 r3
  obtain ⟨_, a1, a2, a3, a4, a5, a6, a7, a8⟩ := chain_spec U w
  obtain ⟨_, b1, b2, b3, b4, b5, b6, b7, b8⟩ := chain_spec U (validateConfirmPassword w).2
  obtain ⟨d1, d2, d3⟩ := afterValidators_rendering U w
  obtain ⟨e1, e2, e3⟩ := afterValidators_rendering U (validateConfirmPassword w).2
  have hv : allValid U (validateConfirmPassword w).2 = allValid U w := by
    apply allValid_congr
    intro g
    cases g
    · simp only [World.get, c1]
    · simp only [World.get, c2]
    · simp only [World.get, c3]
    · simp only [World.get, c4]
    · simp only [World.get, c5]
  have ha : afterValidators U (validateConfirmPassword w).2 = afterValidators U w := by
    apply World.eq_of_fields
    · rw [b1, a1]
      exact (validateName_congr w _ c1).2
    · rw [b2, a2]
      exact (validateEmail_congr w _ c2).2
    · rw [b3, a3]
      exact (validatePhone_congr w _ c3).2
    · rw [b4, a4]
      exact (validatePassword_congr U w _ c4 (by rw [c1])).2
    · rw [b5, a5]
      exact validateConfirmPassword_idem w
    · rw [b6, a6, c6]
    · rw [b7, a7, c7]
    · rw [b8, a8, c8]
    · rw [e1, d1, r1]
    · rw [e2, d2, r2]
    · rw [e3, d3, r3]
    · rw [afterValidators_userShown, afterValidators_userShown]
      exact validateField_userShown U .confirmPassword w
  rw [onSubmit_eq, onSubmit_eq U w, hv, ha, c6, c7, c8, c1]

/-- The `keydown` listener for the key `Enter`, written out. -/
theorem onKeydown_enter_eq (U : JSString → JSString) (f : FieldId) (w : World) :
    onKeydown U f (js "Enter") w =
      if (validateField U f w).1 = true then
        if f.idx < fields.length - 1 then
          ⟨{ (validateField U f w).2 with focus := fields[f.idx + 1]? }, none⟩
        else onSubmit U (validateField U f w).2
      else ⟨(validateField U f w).2, none⟩ := by
  unfold onKeydown
  simp only [beq_self_eq_true, if_true]

theorem fields_next (f : FieldId) (h : f ≠ .confirmPassword) :
    f.idx < fields.length - 1 ∧ ∃ g, fields[f.idx + 1]? = some g ∧ g.idx = f.idx + 1 := by
  cases f
  · exact ⟨by decide, .email, rfl, rfl⟩
  · exact ⟨by decide, .phone, rfl, rfl⟩
  · exact ⟨by decide, .password, rfl, rfl⟩
  · exact ⟨by decide, .confirmPassword, rfl, rfl⟩
  · exact absurd rfl h

/-! ## The rendered list -/

theorem asNames_eq_some_iff (xs : List JSValue) (L : List JSString) :
    asNames xs = some L ↔ xs = L.map JSValue.string := by
  induction xs generalizing L with
  | nil =>
    simp only [asNames, Option.some.injEq]
    constructor
    · rintro rfl
      rfl
    · intro h
      cases L with
      | nil => rfl
      | cons a L => simp at h
  | cons x xs ih =>
    cases x with
    | string t =>
      simp only [asNames, Option.map_eq_some']
      constructor
      · rintro ⟨L1, h1, rfl⟩
        simp [(ih L1).mp h1]
      · intro h
        cases L with
        | nil => simp at h
        | cons a L1 =>
          simp only [List.map_cons, List.cons.injEq, JSValue.string.injEq] at h
          exact ⟨L1, (ih L1).mpr h.2, by rw [h.1]⟩
    | null => cases L <;> simp [asNames]
    | bool b => cases L <;> simp [asNames]
    | number z => cases L <;> simp [asNames]
    | array ys => cases L <;> simp [asNames]
    | object fs => cases L <;> simp [asNames]

theorem map_string_eraseIdx (L : List JSString) (i : Nat) :
    (L.map JSValue.string).eraseIdx i = (L.eraseIdx i).map JSValue.string := by
  induction L generalizing i with
  | nil => rfl
  | cons a L ih =>
    cases i with
    | zero => rfl
    | succ i => simp [List.eraseIdx, ih i]

theorem hasText_map_string (L : List JSString) :
    (L.map JSValue.string).all hasText = true := by
  induction L with
  | nil => rfl
  | cons a L ih =>
    simp only [List.map_cons, List.all_cons, ih, Bool.and_true]
    rfl

theorem restore_map_string (L : List JSString) :
    (L.map JSValue.string).map restore = L.map JSValue.string := by
  induction L with
  | nil => rfl
  | cons a L ih =>
    simp only [List.map_cons, ih]
    rfl

theorem allText_of_asNames (xs : List JSValue) (L : List JSString)
    (h : asNames xs = some L) : xs.all hasText = true := by
  rw [(asNames_eq_some_iff xs L).mp h]
  exact hasText_map_string L

theorem restore_of_asNames (xs : List JSValue) (L : List JSString)
    (h : asNames xs = some L) : xs.map restore = xs := by
  rw [(asNames_eq_some_iff xs L).mp h]
  exact restore_map_string L

/-- On a store that loads as an array whose elements all have a text,
`updateSubmissionStats` raises nothing, writes the count and renders the array. -/
theorem updateSubmissionStats_array (T : JSValue → JSString) (w : World)
    (xs : List JSValue) (hl : loadUsers w.storage = .ok (.array xs))
    (ht : xs.all hasText = true) :
    updateSubmissionStats T w =
      ⟨{ w with
          userCount := w.userCount.map fun _ =>
            decimal xs.length ++ js " people have responded"
          userList := w.userList.map fun _ => xs
          userShown := if w.userList.isSome then xs.length else w.userShown }, none⟩ := by
  have htw : xs.takeWhile hasText = xs := by
    rw [List.takeWhile_eq_self_iff]
    exact List.all_eq_true.mp ht
  unfold updateSubmissionStats
  rw [hl]
  simp only [lengthText, htw, ht, if_true]
  cases h : w.userList <;> simp [h]

/-- The function `updateSubmissionStats` never writes to the store. -/
theorem updateSubmissionStats_storage (T : JSValue → JSString) (w : World) :
    (updateSubmissionStats T w).world.storage = w.storage := by
  unfold updateSubmissionStats
  cases loadUsers w.storage with
  | error e => rfl
  | ok v =>
    simp only
    cases w.userList with
    | none => rfl
    | some ys => cases v <;> rfl

theorem onDeleteClick_eq (T : JSValue → JSString) (idx : Nat) (w : World)
    (xs : List JSValue) (hx : w.userList = some xs) (hi : idx < w.userShown) :
    onDeleteClick T idx w =
      updateSubmissionStats T
        { w with storage := .json (.array ((xs.eraseIdx idx).map restore)) } := by
  unfold onDeleteClick
  rw [hx]
  simp only [if_pos hi, restore_array]

theorem onClearClick_eq (T : JSValue → JSString) (w : World) :
    onClearClick T true w =
      ⟨{ w with
          storage := .absent
          userCount := w.userCount.map fun _ => js "0 people have responded"
          userList := w.userList.map fun _ => []
          userShown := if w.userList.isSome then 0 else w.userShown }, none⟩ := by
  unfold onClearClick
  rw [if_pos rfl, updateSubmissionStats_array T { w with storage := .absent } [] rfl rfl]
  rfl

/-! ## Stored names stay good -/

theorem trimStart_head (s : JSString) (c : Nat) (h : (trimStart s).head? = some c) :
    isWhiteSpace c = false := by
  have := List.head?_dropWhile_not isWhiteSpace s
  unfold trimStart at h
  rw [h] at this
  exact this

theorem trimEnd_last (s : JSString) (c : Nat) (h : (trimEnd s).getLast? = some c) :
    isWhiteSpace c = false := by
  unfold trimEnd at h
  rw [List.getLast?_reverse] at h
  have := List.head?_dropWhile_not isWhiteSpace s.reverse
  rw [h] at this
  exact this

theorem trimEnd_head (s : JSString) (c : Nat) (h : (trimEnd s).head? = some c) :
    s.head? = some c := by
  obtain ⟨r, hr⟩ := trimEnd_initial s
  cases ht : trimEnd s with
  | nil => rw [ht] at h; cases h
  | cons d t =>
    rw [ht] at h hr
    rw [← hr]
    simpa using h

theorem trim_ends (s : JSString) :
    (∀ c, (trim s).head? = some c → isWhiteSpace c = false) ∧
    (∀ c, (trim s).getLast? = some c → isWhiteSpace c = false) := by
  unfold trim
  exact ⟨fun c h => trimStart_head s c (trimEnd_head _ c h), fun c h => trimEnd_last _ c h⟩

theorem trimStart_of_head (n : JSString)
    (h : ∀ c, n.head? = some c → isWhiteSpace c = false) : trimStart n = n := by
  cases n with
  | nil => rfl
  | cons c t =>
    have hc := h c rfl
    simp [trimStart, List.dropWhile_cons, hc]

theorem trimEnd_of_last (n : JSString)
    (h : ∀ c, n.getLast? = some c → isWhiteSpace c = false) : trimEnd n = n := by
  unfold trimEnd
  have h2 : n.reverse.dropWhile isWhiteSpace = n.reverse := by
    apply trimStart_of_head
    intro c hc
    rw [List.head?_reverse] at hc
    exact h c hc
  rw [h2, List.reverse_reverse]

/-- A name accepted by `validateName` is stored as a good name. -/
theorem goodName_of_validateName (w : World) (h : (validateName w).1 = true) :
    GoodName (trim w.fullName.value) := by
  obtain ⟨h5, hall⟩ := (validateName_fst_iff w).mp h
  exact ⟨h5, hall, (trim_ends _).1, (trim_ends _).2⟩

/-- A good name is its own trimmed value and passes `validateName`. -/
theorem validateName_of_goodName (w : World) (h : GoodName w.fullName.value) :
    trim w.fullName.value = w.fullName.value ∧ (validateName w).1 = true := by
  obtain ⟨h5, hall, hh, hl⟩ := h
  have ht : trim w.fullName.value = w.fullName.value := by
    unfold trim
    rw [trimStart_of_head _ hh, trimEnd_of_last _ hl]
  refine ⟨ht, ?_⟩
  rw [validateName_fst_iff, ht]
  exact ⟨h5, hall⟩

theorem storeInv_of_same (w v : World) (h : StoreInv w) (hs : v.storage = w.storage)
    (hu : v.userList = w.userList) : StoreInv v := by
  unfold StoreInv
  rw [hs, hu]
  exact h

theorem storeInv_updateSubmissionStats (T : JSValue → JSString) (w : World)
    (h : StoreInv w) : StoreInv (updateSubmissionStats T w).world := by
  obtain ⟨⟨L, hs, hg⟩, _⟩ := h
  obtain ⟨xs, hl, hx⟩ := loadUsers_of_storedNames _ L hs
  rw [updateSubmissionStats_array T w xs hl (allText_of_asNames xs L hx)]
  refine ⟨⟨L, hs, hg⟩, ?_⟩
  intro ys hys
  dsimp only at hys
  cases hu : w.userList with
  | none => rw [hu] at hys; cases hys
  | some zs =>
    rw [hu] at hys
    simp only [Option.map_some', Option.some.injEq] at hys
    subst hys
    exact ⟨L, hx, hg⟩

theorem storeInv_onSubmit (U : JSString → JSString) (w : World) (h : StoreInv w) :
    StoreInv (onSubmit U w).world := by
  obtain ⟨_, _, _, _, _, _, a6, _, _⟩ := chain_spec U w
  obtain ⟨_, r2, _⟩ := afterValidators_rendering U w
  rcases onSubmit_cases U w with ⟨_, he⟩ | ⟨_, _, e, he⟩ | ⟨hv, xs, hl, he⟩
  · have hw : (onSubmit U w).world = afterValidators U w := by rw [he]
    rw [hw]
    exact storeInv_of_same w (afterValidators U w) h a6 r2
  · have hw : (onSubmit U w).world = afterValidators U w := by rw [he]
    rw [hw]
    exact storeInv_of_same w (afterValidators U w) h a6 r2
  · rw [he]
    obtain ⟨⟨L, hs, hg⟩, hlist⟩ := h
    obtain ⟨xs1, hl1, hx1⟩ := loadUsers_of_storedNames _ L hs
    rw [hl] at hl1
    cases hl1
    have hnew : storedNames (Stored.json
        (.array (xs.map restore ++ [.string (trim w.fullName.value)]))) =
        some (L ++ [trim w.fullName.value]) := by
      rw [restore_of_asNames xs L hx1]
      exact asNames_append xs L _ hx1
    refine ⟨⟨L ++ [trim w.fullName.value], hnew, ?_⟩, ?_⟩
    · intro n hn
      rcases List.mem_append.mp hn with hn | hn
      · exact hg n hn
      · rw [List.mem_singleton.mp hn]
        exact goodName_of_validateName w ((allValid_eq_true_iff U w).mp hv).1
    · intro ys hys
      dsimp only [clearAllErrors, resetForm] at hys
      rw [r2] at hys
      exact hlist ys hys

theorem storeInv_onDeleteClick (T : JSValue → JSString) (idx : Nat) (w : World)
    (h : StoreInv w) : StoreInv (onDeleteClick T idx w).world := by
  cases hu : w.userList with
  | none =>
    unfold onDeleteClick
    rw [hu]
    exact h
  | some xs =>
    by_cases hi : idx < w.userShown
    · rw [onDeleteClick_eq T idx w xs hu hi]
      apply storeInv_updateSubmissionStats
      obtain ⟨L, hx, hg⟩ := h.2 xs hu
      have hxs := (asNames_eq_some_iff xs L).mp hx
      refine ⟨⟨L.eraseIdx idx, ?_, ?_⟩, ?_⟩
      · show asNames ((xs.eraseIdx idx).map restore) = some (L.eraseIdx idx)
        rw [asNames_eq_some_iff, hxs, map_string_eraseIdx, restore_map_string]
      · intro n hn
        exact hg n (List.mem_of_mem_eraseIdx hn)
      · exact h.2
    · unfold onDeleteClick
      rw [hu]
      simp only [if_neg hi]
      exact h

theorem storeInv_onClearClick (T : JSValue → JSString) (c : Bool) (w : World)
    (h : StoreInv w) : StoreInv (onClearClick T c w).world := by
  cases c with
  | false => exact h
  | true =>
    unfold onClearClick
    rw [if_pos rfl]
    apply storeInv_updateSubmissionStats
    exact ⟨⟨[], rfl, by simp⟩, h.2⟩

theorem storeInv_runTimer (T : JSValue → JSString) (w : World) (h : StoreInv w) :
    StoreInv (runTimer T w).world := by
  unfold runTimer
  split_ifs
  · exact h
  · apply storeInv_updateSubmissionStats
    exact storeInv_of_same w _ h rfl rfl

theorem storeInv_validateField (U : JSString → JSString) (f : FieldId) (w : World)
    (h : StoreInv w) : StoreInv (validateField U f w).2 := by
  obtain ⟨_, _, h3, _, _, _, h7, _⟩ := validateField_frame U f w
  exact storeInv_of_same w _ h h3 h7

theorem storeInv_onKeydown (U : JSString → JSString) (f : FieldId) (key : JSString)
    (w : World) (h : StoreInv w) : StoreInv (onKeydown U f key w).world := by
  have hr := storeInv_validateField U f w h
  by_cases hk : key = js "Enter"
  · rw [hk, onKeydown_enter_eq]
    split_ifs
    · exact storeInv_of_same (validateField U f w).2 _ hr rfl rfl
    · exact storeInv_onSubmit U (validateField U f w).2 hr
    · exact hr
  · unfold onKeydown
    rw [if_neg (by simpa using hk)]
    exact h

theorem storeInv_step (U : JSString → JSString) (T : JSValue → JSString) (w : World)
    (e : Event) (h : StoreInv w) : StoreInv (step U T w e) := by
  cases e with
  | edit f text =>
    simp only [step, onInput_eq]
    apply storeInv_validateField
    refine storeInv_of_same w _ h ?_ ?_ <;> cases f <;> rfl
  | key f key => exact storeInv_onKeydown U f key w h
  | submit => exact storeInv_onSubmit U w h
  | delete idx => exact storeInv_onDeleteClick T idx w h
  | clear c => exact storeInv_onClearClick T c w h
  | timer => exact storeInv_runTimer T w h

theorem storeInv_run (U : JSString → JSString) (T : JSValue → JSString)
    (es : List Event) (w : World) (h : StoreInv w) : StoreInv (run U T w es) := by
  induction es generalizing w with
  | nil => exact h
  | cons e es ih => exact ih _ (storeInv_step U T w e h)

/-- A store that loads as an array is not the store an accepted submit leaves: that one
holds one element more. -/
theorem stored_ne_of_push (st : Stored) (xs : List JSValue) (x : JSValue)
    (hl : loadUsers st = .ok (.array xs)) :
    Stored.json (.array (xs.map restore ++ [x])) ≠ st := by
  intro h
  rw [← h] at hl
  have h2 : loadUsers (Stored.json (.array (xs.map restore ++ [x]))) =
      .ok (.array (xs.map restore ++ [x])) := rfl
  rw [h2] at hl
  have h3 : xs.map restore ++ [x] = xs := by
    injection hl with h4
    injection h4
  have := congrArg List.length h3
  simp at this

/-- C6: when the trimmed name has fewer than five code units, `validateName` fails and
the reason it shows is the too-short one, never the invalid-characters one, whatever
characters the value holds: the length test comes first. -/
theorem validateName_too_short_reason (w : World)
    (h : (trim w.fullName.value).length < 5) :
    (validateName w).1 = false ∧
    (validateName w).2 = { w with
      fullName := showError w.fullName (js "Name must be at least 5 characters") } ∧
    (validateName w).2.fullName.isInvalid = true ∧
    (validateName w).2.fullName.errorText =
      w.fullName.errorText.map (fun _ => js "Name must be at least 5 characters") ∧
    (validateName w).2.fullName.errorText ≠
      some (js "Name must contain only letters and spaces") := by
  rw [validateName_short w h]
  refine ⟨rfl, rfl, rfl, rfl, ?_⟩
  simp only [showError]
  cases w.fullName.errorText with
  | none => simp
  | some t =>
    simp only [Option.map_some', ne_eq, Option.some.injEq]
    decide

/-- A short name with a digit and a punctuation mark is reported as too short. -/
theorem validateName_too_short_reason_witness :
    (trim (exampleForm " a1! " "" "" "" "").fullName.value).length < 5 ∧
    (validateName (exampleForm " a1! " "" "" "" "")).1 = false ∧
    (validateName (exampleForm " a1! " "" "" "" "")).2.fullName.errorText =
      some (js "Name must be at least 5 characters") :=
  ⟨by decide,
   (validateName_too_short_reason (exampleForm " a1! " "" "" "" "") (by decide)).1,
   (validateName_too_short_reason (exampleForm " a1! " "" "" "" "") (by decide)).2.2.2.1⟩

/-- C7: `validateName` passes exactly when the trimmed name has at least five code
units, all of them ASCII letters or spaces; and, on a page with an error element for
the name, it shows the invalid-characters reason exactly when the trimmed name has at
least five code units and one of them is neither an ASCII letter nor a space. -/
theorem validateName_pass_iff (w : World) :
    ((validateName w).1 = true ↔
      5 ≤ (trim w.fullName.value).length ∧
        ∀ c ∈ trim w.fullName.value, isLetter c = true ∨ c = 32) ∧
    ((5 ≤ (trim w.fullName.value).length ∧
        ∃ c ∈ trim w.fullName.value, isLetter c = false ∧ c ≠ 32) →
      validateName w = (false, { w with
        fullName :=
          showError w.fullName (js "Name must contain only letters and spaces") })) ∧
    (∀ t, w.fullName.errorText = some t →
      ((validateName w).2.fullName.errorText =
          some (js "Name must contain only letters and spaces") ↔
        5 ≤ (trim w.fullName.value).length ∧
          ∃ c ∈ trim w.fullName.value, isLetter c = false ∧ c ≠ 32)) := by
  refine ⟨validateName_fst_iff w, ?_, ?_⟩
  · rintro ⟨h5, hbad⟩
    exact validateName_badChars w h5 ((namePattern_false_iff _ h5).mpr hbad)
  · intro t ht
    by_cases h : (trim w.fullName.value).length < 5
    · rw [validateName_short w h]
      simp only [showError, ht, Option.map_some', Option.some.injEq]
      constructor
      · intro hf
        exact absurd hf (by decide)
      · rintro ⟨h5, _⟩
        omega
    · have h5 : 5 ≤ (trim w.fullName.value).length := Nat.not_lt.mp h
      cases hp : namePattern.test (trim w.fullName.value) with
      | false =>
        rw [validateName_badChars w h5 hp]
        simp only [showError, ht, Option.map_some', true_iff]
        exact ⟨h5, (namePattern_false_iff _ h5).mp hp⟩
      | true =>
        rw [validateName_pass w h5 hp]
        simp only [clearError, setValid, ht, Option.map_some', Option.some.injEq]
        constructor
        · intro hf
          exact absurd hf (by decide)
        · rintro ⟨_, hbad⟩
          rw [(namePattern_false_iff _ h5).mpr hbad] at hp
          cases hp

/-- A long enough name with a digit in it is reported for its characters. -/
theorem validateName_pass_iff_witness :
    (5 ≤ (trim (exampleForm "Alice 2nd" "" "" "" "").fullName.value).length ∧
      ∃ c ∈ trim (exampleForm "Alice 2nd" "" "" "" "").fullName.value,
        isLetter c = false ∧ c ≠ 32) ∧
    (validateName (exampleForm "Alice 2nd" "" "" "" "")).2.fullName.errorText =
      some (js "Name must contain only letters and spaces") :=
  ⟨⟨by decide, 50, by decide, by decide, by decide⟩,
   ((validateName_pass_iff (exampleForm "Alice 2nd" "" "" "" "")).2.2 [] rfl).mpr
     ⟨by decide, 50, by decide, by decide, by decide⟩⟩

/-- C4 (as stated, refuted): five spaces match `^[A-Za-z ]{5,}$`, yet `validateName`
fails on them, because it trims the value before it measures the length. -/
theorem validateName_rejects_five_spaces :
    specNamePattern.test (js "     ") = true ∧
    (validateName (exampleForm "     " "" "" "" "")).1 = false ∧
    specNamePattern.test (js "ab   ") = true ∧
    (validateName (exampleForm "ab   " "" "" "" "")).1 = false := by
  decide

/-- C4 (amended): a name that matches `^[A-Za-z ]{5,}$` and still has at least five
code units after trimming passes `validateName`. -/
theorem validateName_accepts_spec_pattern (w : World)
    (hm : specNamePattern.test w.fullName.value = true)
    (h5 : 5 ≤ (trim w.fullName.value).length) :
    (validateName w).1 = true := by
  rw [validateName_fst_iff]
  refine ⟨h5, ?_⟩
  intro c hc
  have := ((specNamePattern_test _).mp hm).2 c (mem_of_mem_trim hc)
  simpa using this

/-- A padded name of letters and spaces passes. -/
theorem validateName_accepts_spec_pattern_witness :
    specNamePattern.test (exampleForm " Alice Smith " "" "" "" "").fullName.value = true ∧
    5 ≤ (trim (exampleForm " Alice Smith " "" "" "" "").fullName.value).length ∧
    (validateName (exampleForm " Alice Smith " "" "" "" "")).1 = true :=
  ⟨by decide, by decide,
   validateName_accepts_spec_pattern (exampleForm " Alice Smith " "" "" "" "")
     (by decide) (by decide)⟩

/-- C8: `validatePassword` passes exactly when the password has at least eight code
units, its lower-cased value is not `password`, and its lower-cased value differs from
the lower-cased trimmed name; so every letter-case variant of `password` fails, though
it has eight code units. -/
theorem validatePassword_pass_iff (U : JSString → JSString) (w : World) :
    ((validatePassword U w).1 = true ↔
      8 ≤ w.password.value.length ∧
      toLowerCase U w.password.value ≠ js "password" ∧
      toLowerCase U w.password.value ≠ toLowerCase U (trim w.fullName.value)) ∧
    (w.password.value.map lowerAscii = js "password" →
      w.password.value.length = 8 ∧ (validatePassword U w).1 = false) := by
  refine ⟨validatePassword_fst_iff U w, ?_⟩
  intro h
  have hl : w.password.value.length = 8 := by
    have := congrArg List.length h
    simpa using this
  have hlow : toLowerCase U w.password.value = js "password" :=
    toLowerCase_of_map U _ _ (by decide) h
  refine ⟨hl, ?_⟩
  cases hv : (validatePassword U w).1 with
  | false => rfl
  | true => exact absurd hlow ((validatePassword_fst_iff U w).mp hv).2.1

/-- The variant `PassWord` fails. -/
theorem validatePassword_pass_iff_witness :
    (exampleForm "Alice Smith" "" "" "PassWord" "").password.value.map lowerAscii =
      js "password" ∧
    (validatePassword id (exampleForm "Alice Smith" "" "" "PassWord" "")).1 = false :=
  ⟨by decide,
   ((validatePassword_pass_iff id (exampleForm "Alice Smith" "" "" "PassWord" "")).2
     (by decide)).2⟩

/-- C5 (as stated, refuted): with the name `Alice Smith ` (a trailing space) the
password `alice smith ` equals the name field value up to letter case and still passes
`validatePassword`: the name is trimmed before the comparison, the password is not.
The strings are ASCII, so the case tables of the host play no part. -/
theorem validatePassword_accepts_padded_name :
    toLowerCase id (exampleForm "Alice Smith " "" "" "alice smith " "").password.value =
      toLowerCase id (exampleForm "Alice Smith " "" "" "alice smith " "").fullName.value ∧
    8 ≤ (exampleForm "Alice Smith " "" "" "alice smith " "").fullName.value.length ∧
    (validatePassword id (exampleForm "Alice Smith " "" "" "alice smith " "")).1 = true := by
  decide

/-- C5 (amended): a password that equals the trimmed name field value up to letter case
fails `validatePassword`. -/
theorem validatePassword_rejects_trimmed_name (U : JSString → JSString) (w : World)
    (h : toLowerCase U w.password.value = toLowerCase U (trim w.fullName.value)) :
    (validatePassword U w).1 = false := by
  cases hv : (validatePassword U w).1 with
  | false => rfl
  | true => exact absurd h ((validatePassword_fst_iff U w).mp hv).2.2

/-- The padded name `Alice Smith ` rules out the password `ALICE SMITH`. -/
theorem validatePassword_rejects_trimmed_name_witness :
    toLowerCase id (exampleForm "Alice Smith " "" "" "ALICE SMITH" "").password.value =
      toLowerCase id (trim (exampleForm "Alice Smith " "" "" "ALICE SMITH" "").fullName.value) ∧
    (validatePassword id (exampleForm "Alice Smith " "" "" "ALICE SMITH" "")).1 = false :=
  ⟨by decide,
   validatePassword_rejects_trimmed_name id
     (exampleForm "Alice Smith " "" "" "ALICE SMITH" "") (by decide)⟩

/-- C9: `validateConfirmPassword` passes exactly when the confirm value is the password
value, code unit for code unit, and the password is not empty; the empty pair fails. -/
theorem validateConfirmPassword_pass_iff (w : World) :
    ((validateConfirmPassword w).1 = true ↔
      w.confirmPassword.value = w.password.value ∧ w.password.value ≠ []) ∧
    (w.password.value = [] → (validateConfirmPassword w).1 = false) := by
  refine ⟨validateConfirmPassword_fst_iff w, ?_⟩
  intro h
  cases hv : (validateConfirmPassword w).1 with
  | false => rfl
  | true => exact absurd h ((validateConfirmPassword_fst_iff w).mp hv).2

/-- The empty pair fails, and so does a confirm value with an extra space or another
letter case. -/
theorem validateConfirmPassword_pass_iff_witness :
    (exampleForm "" "" "" "" "").password.value = [] ∧
    (validateConfirmPassword (exampleForm "" "" "" "" "")).1 = false ∧
    ¬ (validateConfirmPassword (exampleForm "" "" "" "hunter22" "hunter22 ")).1 = true ∧
    ¬ (validateConfirmPassword (exampleForm "" "" "" "hunter22" "Hunter22")).1 = true :=
  ⟨rfl,
   (validateConfirmPassword_pass_iff (exampleForm "" "" "" "" "")).2 rfl,
   fun h => absurd ((validateConfirmPassword_pass_iff
     (exampleForm "" "" "" "hunter22" "hunter22 ")).1.mp h).1 (by decide),
   fun h => absurd ((validateConfirmPassword_pass_iff
     (exampleForm "" "" "" "hunter22" "Hunter22")).1.mp h).1 (by decide)⟩

/-- C10: `validatePhone` passes exactly when the trimmed value is ten ASCII digits and
is not `1234567890`; the literal fails, also between whitespace, and `0000000000`
passes. -/
theorem validatePhone_pass_iff (w : World) :
    ((validatePhone w).1 = true ↔
      (trim w.phone.value).length = 10 ∧
      (∀ c ∈ trim w.phone.value, isDigit c = true) ∧
      trim w.phone.value ≠ js "1234567890") ∧
    (∀ u v : JSString, (∀ c ∈ u, isWhiteSpace c = true) →
      (∀ c ∈ v, isWhiteSpace c = true) →
      w.phone.value = u ++ js "1234567890" ++ v → (validatePhone w).1 = false) ∧
    (w.phone.value = js "0000000000" → (validatePhone w).1 = true) := by
  refine ⟨validatePhone_fst_iff w, ?_, ?_⟩
  · intro u v hu hv hw
    have ht : trim w.phone.value = js "1234567890" := by
      rw [hw, trim_pad u _ v hu hv]
      decide
    cases hr : (validatePhone w).1 with
    | false => rfl
    | true => exact absurd ht ((validatePhone_fst_iff w).mp hr).2.2
  · intro hw
    rw [validatePhone_fst_iff, hw]
    decide

/-- The rejected literal between spaces fails; ten zeros pass. -/
theorem validatePhone_pass_iff_witness :
    (validatePhone (exampleForm "" "" " 1234567890  " "" "")).1 = false ∧
    (validatePhone (exampleForm "" "" "0000000000" "" "")).1 = true :=
  ⟨(validatePhone_pass_iff (exampleForm "" "" " 1234567890  " "" "")).2.1
     [32] [32, 32] (by decide) (by decide) (by decide),
   (validatePhone_pass_iff (exampleForm "" "" "0000000000" "" "")).2.2 (by decide)⟩

/-- C1 (as stated, refuted): with five valid fields and a stored text that is not JSON,
the submit raises a `SyntaxError`, leaves the store as it was and resets no field; with
the stored JSON number `5` it raises a `TypeError`, stores nothing and resets no field
either. -/
theorem onSubmit_valid_form_not_appended :
    allValid id (exampleForm "Alice Smith" "a@b.co" "0000000000" "hunter22x" "hunter22x")
      = true ∧
    (onSubmit id { exampleForm "Alice Smith" "a@b.co" "0000000000" "hunter22x"
      "hunter22x" with storage := .malformed }).raised = some .syntaxError ∧
    (onSubmit id { exampleForm "Alice Smith" "a@b.co" "0000000000" "hunter22x"
      "hunter22x" with storage := .malformed }).world.storage = .malformed ∧
    (onSubmit id { exampleForm "Alice Smith" "a@b.co" "0000000000" "hunter22x"
      "hunter22x" with storage := .malformed }).world.fullName.value =
      js "Alice Smith" ∧
    (onSubmit id { exampleForm "Alice Smith" "a@b.co" "0000000000" "hunter22x"
      "hunter22x" with storage := .json (.number (.finite 5)) }).raised =
      some .typeError ∧
    (onSubmit id { exampleForm "Alice Smith" "a@b.co" "0000000000" "hunter22x"
      "hunter22x" with storage := .json (.number (.finite 5)) }).world.storage =
      .json (.number (.finite 5)) ∧
    (onSubmit id { exampleForm "Alice Smith" "a@b.co" "0000000000" "hunter22x"
      "hunter22x" with storage := .json (.number (.finite 5)) }).world.fullName.value =
      js "Alice Smith" :=
  ⟨by decide, by decide, rfl, by decide, by decide, rfl, by decide⟩

/-- C1 (amended): on a store that loads as an array `xs` (the key is absent, or holds
JSON for a falsy value or for an array), a submit on which all five validators pass
raises nothing and leaves in the store the array as `JSON.stringify` writes it back
(an infinite number among its elements becomes `null`) with the trimmed name appended
as its one new last element, whether or not the name is already there; it leaves all
five field values empty; and on a store that holds a list of names `L` the stored list
is `L` followed by the trimmed name. -/
theorem onSubmit_accepted_appends (U : JSString → JSString) (w : World)
    (xs : List JSValue) (hl : loadUsers w.storage = .ok (.array xs))
    (h1 : (validateName w).1 = true) (h2 : (validateEmail w).1 = true)
    (h3 : (validatePhone w).1 = true) (h4 : (validatePassword U w).1 = true)
    (h5 : (validateConfirmPassword w).1 = true) :
    (onSubmit U w).raised = none ∧
    (onSubmit U w).world.storage =
      .json (.array (xs.map restore ++ [.string (trim w.fullName.value)])) ∧
    loadUsers (onSubmit U w).world.storage =
      .ok (.array (xs.map restore ++ [.string (trim w.fullName.value)])) ∧
    (∀ f, ((onSubmit U w).world.get f).value = []) ∧
    (∀ L, storedNames w.storage = some L →
      storedNames (onSubmit U w).world.storage = some (L ++ [trim w.fullName.value])) := by
  have hv : allValid U w = true := (allValid_eq_true_iff U w).mpr ⟨h1, h2, h3, h4, h5⟩
  have hst := onSubmit_accepted_storage U w xs hv hl
  refine ⟨?_, hst, ?_, onSubmit_accepted_value U w xs hv hl, ?_⟩
  · rw [onSubmit_accepted U w xs hv hl]
  · rw [hst]
    rfl
  · intro L hs
    obtain ⟨ys, hl2, hx⟩ := loadUsers_of_storedNames _ L hs
    rw [hl] at hl2
    cases hl2
    rw [hst, restore_of_asNames xs L hx]
    exact asNames_append xs L _ hx

/-- A second submission of `Alice Smith` is appended after the first, and after an
element that was stored as `1e400` and is written back as `null`. -/
theorem onSubmit_accepted_appends_witness :
    loadUsers ({ exampleForm " Alice Smith" "a@b.co" "0000000000" "hunter22x" "hunter22x"
      with storage := .json (.array [.number (.infinite false),
        .string (js "Alice Smith")]) } : World).storage =
      .ok (.array [.number (.infinite false), .string (js "Alice Smith")]) ∧
    (onSubmit id { exampleForm " Alice Smith" "a@b.co" "0000000000"
      "hunter22x" "hunter22x" with
        storage := .json (.array [.number (.infinite false),
          .string (js "Alice Smith")]) }).world.storage =
      .json (.array [.null, .string (js "Alice Smith"), .string (js "Alice Smith")]) :=
  ⟨rfl,
   (onSubmit_accepted_appends id { exampleForm " Alice Smith" "a@b.co" "0000000000"
      "hunter22x" "hunter22x" with
        storage := .json (.array [.number (.infinite false),
          .string (js "Alice Smith")]) }
      [.number (.infinite false), .string (js "Alice Smith")] rfl
      (by decide) (by decide) (by decide) (by decide) (by decide)).2.1.trans rfl⟩

/-- C2 (as stated, refuted): with the stored JSON number `5`, and with a stored text
that is not JSON, all five validators pass on the form and still the store is not
written: the submit raises and leaves the store as it was. -/
theorem onSubmit_valid_form_not_written :
    ((validateName (exampleForm "Alice Smith" "a@b.co" "0000000000" "hunter22x"
        "hunter22x")).1 = true ∧
      (validateEmail (exampleForm "Alice Smith" "a@b.co" "0000000000" "hunter22x"
        "hunter22x")).1 = true ∧
      (validatePhone (exampleForm "Alice Smith" "a@b.co" "0000000000" "hunter22x"
        "hunter22x")).1 = true ∧
      (validatePassword id (exampleForm "Alice Smith" "a@b.co" "0000000000" "hunter22x"
        "hunter22x")).1 = true ∧
      (validateConfirmPassword (exampleForm "Alice Smith" "a@b.co" "0000000000"
        "hunter22x" "hunter22x")).1 = true) ∧
    (onSubmit id { exampleForm "Alice Smith" "a@b.co" "0000000000" "hunter22x"
      "hunter22x" with storage := .json (.number (.finite 5)) }).world.storage =
      .json (.number (.finite 5)) ∧
    (onSubmit id { exampleForm "Alice Smith" "a@b.co" "0000000000" "hunter22x"
      "hunter22x" with storage := .malformed }).world.storage = .malformed :=
  ⟨by decide, rfl, rfl⟩

/-- C2 (amended): when at least one of the five validators fails, the submit listener
raises nothing, leaves the store, the field values, the queued timers and the alerts as
they were, and ends in the state reached by calling the five validators in the order
name, email, phone, password, confirm-password, in which every field shows what its own
validator makes of the current values. The store is written if and only if all five
validators pass and the stored value loads as an array (the key is absent, or holds
JSON for a falsy value or for an array); on a store that holds a list of names, the
list changes if and only if all five validators pass. -/
theorem onSubmit_rejected_keeps_store (U : JSString → JSString) (w : World) :
    (((validateName w).1 = false ∨ (validateEmail w).1 = false ∨
        (validatePhone w).1 = false ∨ (validatePassword U w).1 = false ∨
        (validateConfirmPassword w).1 = false) →
      (onSubmit U w).raised = none ∧
      (onSubmit U w).world.storage = w.storage ∧
      (∀ f, ((onSubmit U w).world.get f).value = (w.get f).value) ∧
      (onSubmit U w).world.timers = w.timers ∧
      (onSubmit U w).world.alerts = w.alerts ∧
      (onSubmit U w).world = afterValidators U w ∧
      (∀ f, (onSubmit U w).world.get f = ((validateField U f w).2).get f)) ∧
    ((onSubmit U w).world.storage ≠ w.storage ↔
      (((validateName w).1 = true ∧ (validateEmail w).1 = true ∧
          (validatePhone w).1 = true ∧ (validatePassword U w).1 = true ∧
          (validateConfirmPassword w).1 = true) ∧
        ∃ xs, loadUsers w.storage = .ok (.array xs))) ∧
    (∀ L, storedNames w.storage = some L →
      (storedNames (onSubmit U w).world.storage ≠ some L ↔
        ((validateName w).1 = true ∧ (validateEmail w).1 = true ∧
          (validatePhone w).1 = true ∧ (validatePassword U w).1 = true ∧
          (validateConfirmPassword w).1 = true))) := by
  obtain ⟨_, _, _, _, _, _, a6, a7, a8⟩ := chain_spec U w
  refine ⟨?_, ?_, ?_⟩
  · intro hfail
    rw [onSubmit_rejected U w ((allValid_eq_false_iff U w).mpr hfail)]
    dsimp only
    exact ⟨rfl, a6, afterValidators_value U w, a7, a8, rfl, afterValidators_get U w⟩
  · rw [← allValid_eq_true_iff]
    constructor
    · intro hne
      by_contra hcon
      apply hne
      apply onSubmit_storage_of_rejected U w
      by_cases hv : allValid U w = true
      · exact Or.inr fun hx => hcon ⟨hv, hx⟩
      · exact Or.inl (by simpa using hv)
    · rintro ⟨hv, xs, hl⟩
      rw [onSubmit_accepted_storage U w xs hv hl]
      exact stored_ne_of_push w.storage xs _ hl
  · intro L hs
    rw [← allValid_eq_true_iff]
    by_cases hv : allValid U w = true
    · obtain ⟨xs, hl, hx⟩ := loadUsers_of_storedNames _ L hs
      rw [onSubmit_accepted_storage U w xs hv hl, restore_of_asNames xs L hx]
      simp only [hv, iff_true]
      have happ : storedNames (Stored.json (.array (xs ++ [.string (trim w.fullName.value)])))
          = some (L ++ [trim w.fullName.value]) := asNames_append xs L _ hx
      rw [happ]
      intro h2
      have := congrArg (Option.map List.length) h2
      simp at this
    · have hf : allValid U w = false := by simpa using hv
      rw [onSubmit_rejected U w hf]
      dsimp only
      rw [a6, hs]
      simp [hf]

/-- A form whose email and phone are wrong is rejected, the store keeps its one entry,
and the phone field shows its error. -/
theorem onSubmit_rejected_keeps_store_witness :
    (validateEmail { exampleForm "Alice Smith" "a@b" "12345" "hunter22x" "hunter22x"
      with storage := .json (.array [.string (js "Bob Stone")]) }).1 = false ∧
    storedNames (onSubmit id { exampleForm "Alice Smith" "a@b" "12345" "hunter22x"
      "hunter22x" with
        storage := .json (.array [.string (js "Bob Stone")]) }).world.storage =
      some [js "Bob Stone"] ∧
    ((onSubmit id { exampleForm "Alice Smith" "a@b" "12345" "hunter22x" "hunter22x"
      with storage := .json (.array [.string (js "Bob Stone")]) }).world.get
        FieldId.phone).isInvalid = true :=
  ⟨by decide,
   (congrArg storedNames ((onSubmit_rejected_keeps_store id
      { exampleForm "Alice Smith" "a@b" "12345" "hunter22x" "hunter22x"
        with storage := .json (.array [.string (js "Bob Stone")]) }).1
      (Or.inr (Or.inl (by decide)))).2.1).trans rfl,
   (congrArg Input.isInvalid (((onSubmit_rejected_keeps_store id
      { exampleForm "Alice Smith" "a@b" "12345" "hunter22x" "hunter22x"
        with storage := .json (.array [.string (js "Bob Stone")]) }).1
      (Or.inr (Or.inl (by decide)))).2.2.2.2.2.2 FieldId.phone)).trans (by decide)⟩

/-- C3 (as stated, refuted): a stored text that is not JSON makes the load raise a
`SyntaxError`, and a submit with five valid fields then raises and stores nothing; the
stored JSON number `5` loads as that number, not as the empty list, and the same submit
raises a `TypeError`; the stored JSON array `[5]` loads as itself and the submit leaves
two entries. -/
theorem loadUsers_malformed_raises :
    allValid id (exampleForm "Alice Smith" "a@b.co" "0000000000" "hunter22x" "hunter22x")
      = true ∧
    loadUsers Stored.malformed = .error .syntaxError ∧
    (onSubmit id { exampleForm "Alice Smith" "a@b.co" "0000000000" "hunter22x"
      "hunter22x" with storage := .malformed }).raised = some .syntaxError ∧
    storedNames (onSubmit id { exampleForm "Alice Smith" "a@b.co" "0000000000"
      "hunter22x" "hunter22x" with storage := .malformed }).world.storage = none ∧
    loadUsers (.json (.number (.finite 5))) = .ok (.number (.finite 5)) ∧
    (onSubmit id { exampleForm "Alice Smith" "a@b.co" "0000000000" "hunter22x"
      "hunter22x" with storage := .json (.number (.finite 5)) }).raised =
      some .typeError ∧
    loadUsers (.json (.array [.number (.finite 5)])) =
      .ok (.array [.number (.finite 5)]) ∧
    (onSubmit id { exampleForm "Alice Smith" "a@b.co" "0000000000" "hunter22x"
      "hunter22x" with storage := .json (.array [.number (.finite 5)]) }).world.storage =
      .json (.array [.number (.finite 5), .string (js "Alice Smith")]) :=
  ⟨by decide, rfl, by decide, by decide, rfl, by decide, rfl, rfl⟩

/-- C3 (amended): (1) a stored text that is not JSON makes the load raise a
`SyntaxError`: `updateSubmissionStats` raises it and changes nothing, and a submit with
five valid fields raises it and leaves the store as it was; with five valid fields,
(2) an absent entry, and JSON for a falsy value (`null`, `false`, `0`, the empty
string), load as the empty list, the submit raises nothing and stores the one-entry
list of the trimmed name; (3) a JSON array loads as itself and the submit stores it as
`JSON.stringify` writes it back (an infinite number among its elements becomes `null`)
with the trimmed name appended; (4) JSON for any other value loads as itself, the submit
raises a `TypeError` and the store keeps its value. -/
theorem onSubmit_by_stored_value (U : JSString → JSString) (T : JSValue → JSString)
    (w : World)
    (h1 : (validateName w).1 = true) (h2 : (validateEmail w).1 = true)
    (h3 : (validatePhone w).1 = true) (h4 : (validatePassword U w).1 = true)
    (h5 : (validateConfirmPassword w).1 = true) :
    (w.storage = .malformed →
      loadUsers w.storage = .error .syntaxError ∧
      updateSubmissionStats T w = ⟨w, some .syntaxError⟩ ∧
      (onSubmit U w).raised = some .syntaxError ∧
      (onSubmit U w).world.storage = .malformed) ∧
    ((w.storage = .absent ∨ ∃ v, w.storage = .json v ∧ truthy v = false) →
      loadUsers w.storage = .ok (.array []) ∧
      (onSubmit U w).raised = none ∧
      storedNames (onSubmit U w).world.storage = some [trim w.fullName.value]) ∧
    (∀ xs, w.storage = .json (.array xs) →
      loadUsers w.storage = .ok (.array xs) ∧
      (onSubmit U w).raised = none ∧
      (onSubmit U w).world.storage =
        .json (.array (xs.map restore ++ [.string (trim w.fullName.value)]))) ∧
    (∀ v, w.storage = .json v → truthy v = true → (∀ xs, v ≠ .array xs) →
      loadUsers w.storage = .ok v ∧
      (onSubmit U w).raised = some .typeError ∧
      (onSubmit U w).world.storage = .json v) := by
  have hv : allValid U w = true := (allValid_eq_true_iff U w).mpr ⟨h1, h2, h3, h4, h5⟩
  obtain ⟨_, _, _, _, _, _, a6, _, _⟩ := chain_spec U w
  refine ⟨?_, ?_, ?_, ?_⟩
  · intro hs
    have hl : loadUsers w.storage = .error .syntaxError := by rw [hs]; rfl
    refine ⟨hl, ?_, ?_, ?_⟩
    · unfold updateSubmissionStats
      rw [hl]
    · rw [onSubmit_load_error U w _ hv hl]
    · rw [onSubmit_load_error U w _ hv hl]
      exact a6.trans hs
  · intro hs
    have hl : loadUsers w.storage = .ok (.array []) := by
      rcases hs with hs | ⟨v, hs, hf⟩
      · rw [hs]; rfl
      · rw [hs]
        simp only [loadUsers, parseStored, hf, Bool.false_eq_true, if_false]
    refine ⟨hl, ?_, ?_⟩
    · rw [onSubmit_accepted U w [] hv hl]
    · rw [onSubmit_accepted_storage U w [] hv hl]
      rfl
  · intro xs hs
    have hl : loadUsers w.storage = .ok (.array xs) := by rw [hs]; rfl
    refine ⟨hl, ?_, onSubmit_accepted_storage U w xs hv hl⟩
    rw [onSubmit_accepted U w xs hv hl]
  · intro v hs ht hna
    have hl : loadUsers w.storage = .ok v := by
      rw [hs]
      simp only [loadUsers, parseStored, ht, if_true]
    have hp : push v (.string (trim w.fullName.value)) = .error .typeError := by
      cases v with
      | array xs => exact absurd rfl (hna xs)
      | null => rfl
      | bool b => rfl
      | number z => rfl
      | string t => rfl
      | object fs => rfl
    refine ⟨hl, ?_, ?_⟩
    · rw [onSubmit_push_error U w v _ hv hl hp]
    · rw [onSubmit_push_error U w v _ hv hl hp]
      exact a6.trans hs

/-- The four kinds of stored value, each met by a valid form; the stored array is
`[1e400]`, which the submit leaves as `null` followed by the name. -/
theorem onSubmit_by_stored_value_witness :
    (onSubmit id { exampleForm "Alice Smith" "a@b.co" "0000000000" "hunter22x"
      "hunter22x" with storage := .malformed }).raised = some .syntaxError ∧
    storedNames (onSubmit id { exampleForm "Alice Smith" "a@b.co" "0000000000"
      "hunter22x" "hunter22x" with storage := .json .null }).world.storage =
      some [js "Alice Smith"] ∧
    (onSubmit id { exampleForm "Alice Smith" "a@b.co" "0000000000" "hunter22x"
      "hunter22x" with storage := .json (.array [.number (.infinite false)])
        }).world.storage =
      .json (.array [.null, .string (js "Alice Smith")]) ∧
    (onSubmit id { exampleForm "Alice Smith" "a@b.co" "0000000000" "hunter22x"
      "hunter22x" with storage := .json (.object []) }).raised = some .typeError :=
  ⟨((onSubmit_by_stored_value id (fun _ => []) { exampleForm "Alice Smith" "a@b.co"
      "0000000000" "hunter22x" "hunter22x" with storage := .malformed }
      (by decide) (by decide) (by decide) (by decide) (by decide)).1 rfl).2.2.1,
   ((onSubmit_by_stored_value id (fun _ => []) { exampleForm "Alice Smith" "a@b.co"
      "0000000000" "hunter22x" "hunter22x" with storage := .json .null }
      (by decide) (by decide) (by decide) (by decide) (by decide)).2.1
      (Or.inr ⟨.null, rfl, rfl⟩)).2.2.trans (by decide),
   ((onSubmit_by_stored_value id (fun _ => []) { exampleForm "Alice Smith" "a@b.co"
      "0000000000" "hunter22x" "hunter22x" with
        storage := .json (.array [.number (.infinite false)]) }
      (by decide) (by decide) (by decide) (by decide) (by decide)).2.2.1
      [.number (.infinite false)] rfl).2.2.trans rfl,
   ((onSubmit_by_stored_value id (fun _ => []) { exampleForm "Alice Smith" "a@b.co"
      "0000000000" "hunter22x" "hunter22x" with storage := .json (.object []) }
      (by decide) (by decide) (by decide) (by decide) (by decide)).2.2.2
      (.object []) rfl rfl (fun _ h => JSValue.noConfusion h)).2.1⟩

/-- C11: `validateEmail` returns what the pattern
`/^[^@\s]+@[^@\s]+\.[a-zA-Z]{2,}$/` says of the trimmed email value; `a@b.co` passes,
`a@b` and `a@@b.com` fail; and every failure calls `showError` with the one message
`Enter a valid email address`, which the error element then shows. -/
theorem validateEmail_decides (w : World) :
    (validateEmail w).1 = emailPattern.test (trim w.email.value) ∧
    (w.email.value = js "a@b.co" → (validateEmail w).1 = true) ∧
    (w.email.value = js "a@b" → (validateEmail w).1 = false) ∧
    (w.email.value = js "a@@b.com" → (validateEmail w).1 = false) ∧
    ((validateEmail w).1 = false →
      validateEmail w =
        (false, { w with email := showError w.email (js "Enter a valid email address") }) ∧
      (validateEmail w).2.email.isInvalid = true ∧
      (validateEmail w).2.email.errorText =
        w.email.errorText.map fun _ => js "Enter a valid email address") := by
  refine ⟨validateEmail_fst_eq w, ?_, ?_, ?_, ?_⟩
  · intro h
    rw [validateEmail_fst_eq, h]
    decide
  · intro h
    rw [validateEmail_fst_eq, h]
    decide
  · intro h
    rw [validateEmail_fst_eq, h]
    decide
  · intro h
    rw [validateEmail_fail w h]
    exact ⟨rfl, rfl, rfl⟩

/-- The three sample addresses, and the message shown for a failing one. -/
theorem validateEmail_decides_witness :
    (validateEmail (exampleForm "" "a@b.co" "" "" "")).1 = true ∧
    (validateEmail (exampleForm "" "a@b" "" "" "")).1 = false ∧
    (validateEmail (exampleForm "" "a@@b.com" "" "" "")).1 = false ∧
    (validateEmail (exampleForm "" "a@@b.com" "" "" "")).2.email.errorText =
      some (js "Enter a valid email address") :=
  ⟨(validateEmail_decides (exampleForm "" "a@b.co" "" "" "")).2.1 (by decide),
   (validateEmail_decides (exampleForm "" "a@b" "" "" "")).2.2.1 (by decide),
   (validateEmail_decides (exampleForm "" "a@@b.com" "" "" "")).2.2.2.1 (by decide),
   ((validateEmail_decides (exampleForm "" "a@@b.com" "" "" "")).2.2.2.2
     (by decide)).2.2⟩

/-- C17: when `validateEmail` passes, the trimmed value is `loc@dom.tld` with `loc` and
`dom` non-empty and free of `@`, and `tld` two or more ASCII letters; so it holds
exactly one `@`, no whitespace, a character before the `@`, and after the `@` a dot
that is not first there and is followed to the end by at least two letters. -/
theorem validateEmail_pass_shape (w : World) (h : (validateEmail w).1 = true) :
    (∃ loc dom tld, trim w.email.value = loc ++ [64] ++ dom ++ [46] ++ tld ∧
      loc ≠ [] ∧ (∀ c ∈ loc, c ≠ 64) ∧ dom ≠ [] ∧ (∀ c ∈ dom, c ≠ 64) ∧
      2 ≤ tld.length ∧ ∀ c ∈ tld, isLetter c = true) ∧
    (trim w.email.value).count 64 = 1 ∧
    (∀ c ∈ trim w.email.value, isWhiteSpace c = false) := by
  rw [validateEmail_fst_eq, emailPattern_test] at h
  obtain ⟨loc, dom, tld, hs, ⟨hloc, hlocA⟩, ⟨hdom, hdomA⟩, htld, htldA⟩ := h
  refine ⟨⟨loc, dom, tld, by simp [hs], hloc, fun c hc => (hlocA c hc).1, hdom,
    fun c hc => (hdomA c hc).1, htld, htldA⟩, ?_, ?_⟩
  · rw [hs]
    have h1 : loc.count 64 = 0 :=
      List.count_eq_zero_of_not_mem fun hm => (hlocA 64 hm).1 rfl
    have h2 : dom.count 64 = 0 :=
      List.count_eq_zero_of_not_mem fun hm => (hdomA 64 hm).1 rfl
    have h3 : tld.count 64 = 0 :=
      List.count_eq_zero_of_not_mem fun hm => ne_at_of_isLetter (htldA 64 hm) rfl
    simp [List.count_append, List.count_cons, h1, h2, h3]
  · intro c hc
    rw [hs] at hc
    simp only [List.mem_append, List.mem_cons] at hc
    rcases hc with hc | rfl | hc | rfl | hc
    · exact (hlocA c hc).2
    · decide
    · exact (hdomA c hc).2
    · decide
    · exact not_whiteSpace_of_isLetter (htldA c hc)

/-- The padded address ` ann@mail.example.org ` passes and has one `@`. -/
theorem validateEmail_pass_shape_witness :
    (validateEmail (exampleForm "" " ann@mail.example.org " "" "" "")).1 = true ∧
    (trim (exampleForm "" " ann@mail.example.org " "" "" "").email.value).count 64 = 1 :=
  ⟨by decide,
   (validateEmail_pass_shape (exampleForm "" " ann@mail.example.org " "" "" "")
     (by decide)).2.1⟩

/-- C19: `validateName`, `validateEmail` and `validatePhone` return the same verdict,
and leave the same error text and marks on their input, for a value and for that value
between two runs of whitespace. -/
theorem trimming_validators_ignore_padding (w : World) (u v : JSString)
    (hu : ∀ c ∈ u, isWhiteSpace c = true) (hv : ∀ c ∈ v, isWhiteSpace c = true) :
    ((validateName { w with
        fullName := { w.fullName with value := u ++ w.fullName.value ++ v } }).1 =
        (validateName w).1 ∧
      (validateName { w with
        fullName := { w.fullName with value := u ++ w.fullName.value ++ v } }).2.fullName.errorText =
        (validateName w).2.fullName.errorText ∧
      (validateName { w with
        fullName := { w.fullName with value := u ++ w.fullName.value ++ v } }).2.fullName.isInvalid =
        (validateName w).2.fullName.isInvalid ∧
      (validateName { w with
        fullName := { w.fullName with value := u ++ w.fullName.value ++ v } }).2.fullName.isValid =
        (validateName w).2.fullName.isValid) ∧
    ((validateEmail { w with
        email := { w.email with value := u ++ w.email.value ++ v } }).1 =
        (validateEmail w).1 ∧
      (validateEmail { w with
        email := { w.email with value := u ++ w.email.value ++ v } }).2.email.errorText =
        (validateEmail w).2.email.errorText ∧
      (validateEmail { w with
        email := { w.email with value := u ++ w.email.value ++ v } }).2.email.isInvalid =
        (validateEmail w).2.email.isInvalid ∧
      (validateEmail { w with
        email := { w.email with value := u ++ w.email.value ++ v } }).2.email.isValid =
        (validateEmail w).2.email.isValid) ∧
    ((validatePhone { w with
        phone := { w.phone with value := u ++ w.phone.value ++ v } }).1 =
        (validatePhone w).1 ∧
      (validatePhone { w with
        phone := { w.phone with value := u ++ w.phone.value ++ v } }).2.phone.errorText =
        (validatePhone w).2.phone.errorText ∧
      (validatePhone { w with
        phone := { w.phone with value := u ++ w.phone.value ++ v } }).2.phone.isInvalid =
        (validatePhone w).2.phone.isInvalid ∧
      (validatePhone { w with
        phone := { w.phone with value := u ++ w.phone.value ++ v } }).2.phone.isValid =
        (validatePhone w).2.phone.isValid) := by
  refine ⟨?_, ?_, ?_⟩
  · unfold validateName
    simp only [trim_pad u _ v hu hv]
    split_ifs <;> simp [showError, clearError, setValid]
  · unfold validateEmail
    simp only [trim_pad u _ v hu hv]
    split_ifs <;> simp [showError, clearError, setValid]
  · unfold validatePhone
    simp only [trim_pad u _ v hu hv]
    split_ifs <;> simp [showError, clearError, setValid]

/-- A short name with a digit fails as too short, with or without padding. -/
theorem trimming_validators_ignore_padding_witness :
    (∀ c ∈ [32, 9], isWhiteSpace c = true) ∧ (∀ c ∈ [160], isWhiteSpace c = true) ∧
    (validateName { exampleForm "a1" "a@b.co" "0000000000" "" "" with
      fullName := { (exampleForm "a1" "a@b.co" "0000000000" "" "").fullName with
        value := [32, 9] ++ (exampleForm "a1" "a@b.co" "0000000000" "" "").fullName.value
          ++ [160] } }).2.fullName.errorText =
      (validateName (exampleForm "a1" "a@b.co" "0000000000" "" "")).2.fullName.errorText :=
  ⟨by decide, by decide,
   (trimming_validators_ignore_padding (exampleForm "a1" "a@b.co" "0000000000" "" "")
     [32, 9] [160] (by decide) (by decide)).1.2.1⟩

/-- C20: the password is compared as typed: `password ` (with a space at the end) trims
and lower-cases to `password` and passes, and `alice smith ` trims and lower-cases to
the lower-cased trimmed name `Alice Smith` and passes, while `password` and
`alice smith` fail; so `validatePassword` is not invariant under padding. -/
theorem validatePassword_keeps_padding :
    toLowerCase id (trim (js "password ")) = js "password" ∧
    (validatePassword id (exampleForm "Alice Smith" "" "" "password " "")).1 = true ∧
    (validatePassword id (exampleForm "Alice Smith" "" "" "password" "")).1 = false ∧
    toLowerCase id (trim (js "alice smith ")) = toLowerCase id (trim (js "Alice Smith")) ∧
    (validatePassword id (exampleForm "Alice Smith" "" "" "alice smith " "")).1 = true ∧
    (validatePassword id (exampleForm "Alice Smith" "" "" "alice smith" "")).1 = false := by
  decide

/-- C15: the `input` listener of a field runs that field's validator and nothing else:
the other four inputs keep their error text and marks, and all field values, the
store, the queued timers, the alerts, the rendered count and list and the focus stay as
they were. So an edit of the name leaves the password's shown state alone, and an edit
of the password leaves the confirm-password's. -/
theorem onInput_touches_one_field (U : JSString → JSString) (f : FieldId) (w : World) :
    onInput U f w = (validateField U f w).2 ∧
    (∀ g, g ≠ f → (onInput U f w).get g = w.get g) ∧
    (∀ g, ((onInput U f w).get g).value = (w.get g).value) ∧
    (onInput U f w).storage = w.storage ∧
    (onInput U f w).timers = w.timers ∧
    (onInput U f w).alerts = w.alerts ∧
    (onInput U f w).userCount = w.userCount ∧
    (onInput U f w).userList = w.userList ∧
    (onInput U f w).focus = w.focus ∧
    (onInput U .fullName w).password = w.password ∧
    (onInput U .password w).confirmPassword = w.confirmPassword := by
  rw [onInput_eq]
  obtain ⟨h1, h2, h3, h4, h5, h6, h7, h8⟩ := validateField_frame U f w
  refine ⟨rfl, h1, h2, h3, h4, h5, h6, h7, h8, ?_, ?_⟩
  · rw [onInput_eq]
    exact (validateField_frame U .fullName w).1 .password (by decide)
  · rw [onInput_eq]
    exact (validateField_frame U .password w).1 .confirmPassword (by decide)

/-- The name is edited into the password: the password field is not marked, although
its validator would now reject it. -/
theorem onInput_touches_one_field_witness :
    FieldId.password ≠ FieldId.fullName ∧
    ((onInput id .fullName (exampleForm "hunter twenty" "" "" "hunter twenty" "")).get
      .password).isInvalid = false ∧
    (validatePassword id
      (onInput id .fullName (exampleForm "hunter twenty" "" "" "hunter twenty" ""))).1 =
      false :=
  ⟨by decide,
   (congrArg Input.isInvalid ((onInput_touches_one_field id .fullName
     (exampleForm "hunter twenty" "" "" "hunter twenty" "")).2.1 .password
       (by decide))).trans rfl,
   by decide⟩

/-- C18: a submit straight after an accepted one is rejected, raises nothing and leaves
the store as the first one left it, because the reset name field is empty and fails
`validateName`; and after any submit at all, a second submit with no edit in between
leaves the store as the first one left it, so the two add at most one entry. -/
theorem onSubmit_twice (U : JSString → JSString) (w : World) :
    (((validateName w).1 = true ∧ (validateEmail w).1 = true ∧
        (validatePhone w).1 = true ∧ (validatePassword U w).1 = true ∧
        (validateConfirmPassword w).1 = true) →
      (onSubmit U w).raised = none →
      (∀ f, ((onSubmit U w).world.get f).value = []) ∧
      (validateName (onSubmit U w).world).1 = false ∧
      (onSubmit U (onSubmit U w).world).raised = none ∧
      (onSubmit U (onSubmit U w).world).world.storage = (onSubmit U w).world.storage) ∧
    (onSubmit U (onSubmit U w).world).world.storage = (onSubmit U w).world.storage := by
  obtain ⟨_, _, _, _, _, _, a6, _, _⟩ := chain_spec U w
  rcases onSubmit_cases U w with ⟨hf, he⟩ | ⟨hv, hnl, e, he⟩ | ⟨hv, xs, hl, he⟩
  · have h2 : allValid U (afterValidators U w) = false := by
      rw [allValid_congr U w _ (afterValidators_value U w), hf]
    refine ⟨?_, ?_⟩
    · intro hall
      rw [(allValid_eq_true_iff U w).mpr hall] at hf
      cases hf
    · have hw : (onSubmit U w).world = afterValidators U w := by rw [he]
      rw [hw]
      exact onSubmit_storage_of_rejected U (afterValidators U w) (Or.inl h2)
  · have hw : (onSubmit U w).world = afterValidators U w := by rw [he]
    refine ⟨?_, ?_⟩
    · intro _ hr
      rw [he] at hr
      cases hr
    · rw [hw]
      refine onSubmit_storage_of_rejected U (afterValidators U w) (Or.inr ?_)
      rw [a6]
      exact hnl
  · have hval : ∀ f, ((onSubmit U w).world.get f).value = [] :=
      onSubmit_accepted_value U w xs hv hl
    have hname : (onSubmit U w).world.fullName.value = [] := hval .fullName
    have h2 : allValid U (onSubmit U w).world = false :=
      allValid_of_empty_name U _ hname
    have hst := onSubmit_storage_of_rejected U (onSubmit U w).world (Or.inl h2)
    refine ⟨?_, hst⟩
    intro _ _
    refine ⟨hval, ?_, ?_, hst⟩
    · rw [validateName_short _ (by rw [hname]; decide)]
    · rw [onSubmit_rejected U _ h2]

/-- After `Alice Smith` is accepted a second submit stores nothing more. -/
theorem onSubmit_twice_witness :
    storedNames (onSubmit id (onSubmit id
      (exampleForm "Alice Smith" "a@b.co" "0000000000" "hunter22x" "hunter22x")).world
      ).world.storage = some [js "Alice Smith"] :=
  (congrArg storedNames ((onSubmit_twice id
    (exampleForm "Alice Smith" "a@b.co" "0000000000" "hunter22x" "hunter22x")).1
    ⟨by decide, by decide, by decide, by decide, by decide⟩ (by decide)).2.2.2).trans
    (by decide)

/-- C14: on the key `Enter` the `keydown` listener of a field runs that field's
validator. If it fails, nothing but that field's shown state changes: the focus stays,
nothing is stored or alerted. If it passes and the field is not the last one, the focus
goes to the field at the next position of `fields`, and again nothing else changes. If
it passes on the last field, confirm-password, the listener does exactly what the
submit listener does, so the store changes only if all five validators pass. Any other
key changes nothing. -/
theorem onKeydown_enter (U : JSString → JSString) (f : FieldId) (w : World) :
    ((validateField U f w).1 = false →
      onKeydown U f (js "Enter") w = ⟨(validateField U f w).2, none⟩ ∧
      (onKeydown U f (js "Enter") w).world.focus = w.focus ∧
      (onKeydown U f (js "Enter") w).world.storage = w.storage ∧
      (onKeydown U f (js "Enter") w).world.alerts = w.alerts ∧
      (onKeydown U f (js "Enter") w).world.timers = w.timers ∧
      ∀ g, g ≠ f → (onKeydown U f (js "Enter") w).world.get g = w.get g) ∧
    ((validateField U f w).1 = true → f ≠ .confirmPassword →
      (onKeydown U f (js "Enter") w).raised = none ∧
      (∃ g, (onKeydown U f (js "Enter") w).world.focus = some g ∧ g.idx = f.idx + 1) ∧
      (onKeydown U f (js "Enter") w).world.storage = w.storage ∧
      (onKeydown U f (js "Enter") w).world.alerts = w.alerts ∧
      (onKeydown U f (js "Enter") w).world.timers = w.timers ∧
      (onKeydown U f (js "Enter") w).world.get f = ((validateField U f w).2).get f ∧
      ∀ g, g ≠ f → (onKeydown U f (js "Enter") w).world.get g = w.get g) ∧
    ((validateField U f w).1 = true → f = .confirmPassword →
      onKeydown U f (js "Enter") w = onSubmit U w ∧
      (((validateName w).1 = false ∨ (validateEmail w).1 = false ∨
          (validatePhone w).1 = false ∨ (validatePassword U w).1 = false ∨
          (validateConfirmPassword w).1 = false) →
        (onKeydown U f (js "Enter") w).world.storage = w.storage)) ∧
    (∀ key, key ≠ js "Enter" → onKeydown U f key w = ⟨w, none⟩) := by
  obtain ⟨h1, _, h3, h4, h5, _, _, h8⟩ := validateField_frame U f w
  refine ⟨?_, ?_, ?_, ?_⟩
  · intro hf
    have he : onKeydown U f (js "Enter") w = ⟨(validateField U f w).2, none⟩ := by
      rw [onKeydown_enter_eq, hf]
      rfl
    rw [he]
    exact ⟨rfl, h8, h3, h5, h4, h1⟩
  · intro ht hne
    obtain ⟨hlt, g, hg, hgi⟩ := fields_next f hne
    have he : onKeydown U f (js "Enter") w =
        ⟨{ (validateField U f w).2 with focus := fields[f.idx + 1]? }, none⟩ := by
      rw [onKeydown_enter_eq, if_pos ht, if_pos hlt]
    rw [he]
    refine ⟨rfl, ⟨g, hg, hgi⟩, h3, h5, h4, ?_, ?_⟩
    · cases f <;> rfl
    · intro k hk
      rw [← h1 k hk]
      cases k <;> rfl
  · intro ht hlast
    subst hlast
    have he : onKeydown U .confirmPassword (js "Enter") w = onSubmit U w := by
      rw [onKeydown_enter_eq, if_pos ht, if_neg (by decide)]
      exact onSubmit_after_confirm U w
    refine ⟨he, ?_⟩
    intro hfail
    rw [he]
    exact onSubmit_storage_of_rejected U w (Or.inl ((allValid_eq_false_iff U w).mpr hfail))
  · intro key hk
    unfold onKeydown
    rw [if_neg]
    simpa using hk

/-- Enter on a valid name moves the focus to the email field; Enter on a short name
leaves it; Enter on a matching confirm-password submits the valid form. -/
theorem onKeydown_enter_witness :
    (onKeydown id .fullName (js "Enter")
      { exampleForm "Alice Smith" "" "" "" "" with focus := some .fullName }).world.focus
        = some .email ∧
    (onKeydown id .fullName (js "Enter")
      { exampleForm "Al" "" "" "" "" with focus := some .fullName }).world.focus
        = some .fullName ∧
    storedNames (onKeydown id .confirmPassword (js "Enter")
      (exampleForm "Alice Smith" "a@b.co" "0000000000" "hunter22x" "hunter22x")
        ).world.storage = some [js "Alice Smith"] :=
  ⟨by decide,
   ((onKeydown_enter id .fullName
      { exampleForm "Al" "" "" "" "" with focus := some .fullName }).1 (by decide)).2.1,
   (congrArg (fun r => storedNames r.world.storage) ((onKeydown_enter id .confirmPassword
      (exampleForm "Alice Smith" "a@b.co" "0000000000" "hunter22x" "hunter22x")).2.2.1
      (by decide) rfl).1).trans (by decide)⟩

/-- C13: whatever the store holds, a confirmed click on the clear button raises
nothing and leaves the key absent, so that the list loads as the empty list, the count
element reads `0 people have responded` and the rendered list is empty; an absent key
loads as the empty list; a second confirmed click changes nothing more; and a click
that is not confirmed changes nothing. -/
theorem onClearClick_empties (T : JSValue → JSString) (w : World) :
    (onClearClick T true w).raised = none ∧
    (onClearClick T true w).world.storage = .absent ∧
    loadUsers (onClearClick T true w).world.storage = .ok (.array []) ∧
    storedNames (onClearClick T true w).world.storage = some [] ∧
    (onClearClick T true w).world.userCount =
      w.userCount.map (fun _ => js "0 people have responded") ∧
    (onClearClick T true w).world.userList = w.userList.map (fun _ => []) ∧
    loadUsers .absent = .ok (.array []) ∧
    storedNames .absent = some [] ∧
    (onClearClick T true (onClearClick T true w).world).world =
      (onClearClick T true w).world ∧
    onClearClick T false w = ⟨w, none⟩ := by
  refine ⟨?_, ?_, ?_, ?_, ?_, ?_, rfl, rfl, ?_, rfl⟩
  · rw [onClearClick_eq]
  · rw [onClearClick_eq]
  · rw [onClearClick_eq]
    rfl
  · rw [onClearClick_eq]
    rfl
  · rw [onClearClick_eq]
  · rw [onClearClick_eq]
  · rw [onClearClick_eq T (onClearClick T true w).world, onClearClick_eq T w]
    apply World.eq_of_fields <;> try rfl
    · dsimp only
      cases w.userCount <;> rfl
    · dsimp only
      cases w.userList <;> rfl
    · dsimp only
      cases w.userList <;> rfl

/-- C12: on a page with the list element, when the store holds the list `L` and the
list has been rendered from it, a click on the Delete button at a position `i` within
`L` raises nothing and leaves in the store, and in the rendering, `L` without its entry
at `i`: one entry fewer, the entries before `i` at their positions, the entries after
`i` one position lower, whether or not `L` holds the same name more than once. -/
theorem onDeleteClick_removes (T : JSValue → JSString) (w : World) (L : List JSString)
    (i : Nat) (hs : storedNames w.storage = some L) (hi : i < L.length)
    (hlist : w.userList ≠ none) :
    (updateSubmissionStats T w).world.userList = some (L.map JSValue.string) ∧
    (onDeleteClick T i (updateSubmissionStats T w).world).raised = none ∧
    storedNames (onDeleteClick T i (updateSubmissionStats T w).world).world.storage =
      some (L.eraseIdx i) ∧
    loadUsers (onDeleteClick T i (updateSubmissionStats T w).world).world.storage =
      .ok (.array ((L.eraseIdx i).map JSValue.string)) ∧
    (onDeleteClick T i (updateSubmissionStats T w).world).world.userList =
      some ((L.eraseIdx i).map JSValue.string) ∧
    (L.eraseIdx i).length = L.length - 1 ∧
    (∀ j, j < i → (L.eraseIdx i)[j]? = L[j]?) ∧
    (∀ j, i ≤ j → (L.eraseIdx i)[j]? = L[j + 1]?) := by
  obtain ⟨xs, hl, hx⟩ := loadUsers_of_storedNames _ L hs
  have hxs : xs = L.map JSValue.string := (asNames_eq_some_iff xs L).mp hx
  subst hxs
  obtain ⟨ys, hys⟩ := Option.ne_none_iff_exists'.mp hlist
  have hw1 := updateSubmissionStats_array T w _ hl (hasText_map_string L)
  have h1 : (updateSubmissionStats T w).world.userList = some (L.map JSValue.string) := by
    rw [hw1]
    simp only [hys, Option.map_some']
  have hi2 : i < (updateSubmissionStats T w).world.userShown := by
    rw [hw1]
    simp only [hys, Option.isSome_some, if_true, List.length_map]
    exact hi
  have hd := onDeleteClick_eq T i (updateSubmissionStats T w).world _ h1 hi2
  rw [map_string_eraseIdx, restore_map_string] at hd
  have hl2 : loadUsers ({ (updateSubmissionStats T w).world with
      storage := .json (.array ((L.eraseIdx i).map JSValue.string)) } : World).storage =
      .ok (.array ((L.eraseIdx i).map JSValue.string)) := rfl
  rw [updateSubmissionStats_array T _ _ hl2 (hasText_map_string _)] at hd
  rw [hd]
  refine ⟨h1, rfl, ?_, ?_, ?_, ?_, ?_, ?_⟩
  · show asNames ((L.eraseIdx i).map JSValue.string) = some (L.eraseIdx i)
    rw [asNames_eq_some_iff]
  · rfl
  · show ((updateSubmissionStats T w).world.userList).map _ = _
    rw [h1]
    rfl
  · rw [List.length_eraseIdx, if_pos hi]
  · intro j hj
    rw [List.getElem?_eraseIdx, if_pos hj]
  · intro j hj
    rw [List.getElem?_eraseIdx, if_neg (by omega)]

/-- Of two entries `Alice Smith` the second is deleted and the first stays. -/
theorem onDeleteClick_removes_witness :
    storedNames (onDeleteClick (fun _ => []) 2 (updateSubmissionStats (fun _ => [])
      { exampleForm "" "" "" "" "" with
        storage := .json (.array [.string (js "Alice Smith"), .string (js "Bob Stone"),
          .string (js "Alice Smith"), .string (js "Carol Reed")]) }).world).world.storage =
      some [js "Alice Smith", js "Bob Stone", js "Carol Reed"] :=
  (onDeleteClick_removes (fun _ => [])
    { exampleForm "" "" "" "" "" with
      storage := .json (.array [.string (js "Alice Smith"), .string (js "Bob Stone"),
        .string (js "Alice Smith"), .string (js "Carol Reed")]) }
    [js "Alice Smith", js "Bob Stone", js "Alice Smith", js "Carol Reed"] 2 rfl
    (by decide) (by simp [exampleForm])).2.2.1.trans (by decide)

/-- C16: from a page whose store is absent or holds the empty list, and whose list
shows no entry yet, after any sequence of edits, key presses, submits, clicks on Delete
buttons, clicks on the clear button and queued refreshes, the store holds a list of
names each of which has at least five code units, all ASCII letters or spaces, with no
whitespace at either end; each is its own trimmed value and passes `validateName`. -/
theorem stored_names_stay_good (U : JSString → JSString) (T : JSValue → JSString)
    (w : World) (es : List Event)
    (hs : w.storage = .absent ∨ w.storage = .json (.array []))
    (hr : w.userList = none ∨ w.userList = some []) :
    ∃ L, storedNames (run U T w es).storage = some L ∧
      ∀ n ∈ L, GoodName n ∧ trim n = n ∧
        ∀ v : World, v.fullName.value = n → (validateName v).1 = true := by
  have h0 : StoreInv w := by
    refine ⟨⟨[], ?_, by simp⟩, ?_⟩
    · rcases hs with hs | hs <;> rw [hs] <;> rfl
    · intro xs hx
      rcases hr with hr | hr
      · rw [hr] at hx
        cases hx
      · rw [hr] at hx
        cases hx
        exact ⟨[], rfl, by simp⟩
  obtain ⟨⟨L, hL, hg⟩, _⟩ := storeInv_run U T es w h0
  refine ⟨L, hL, ?_⟩
  intro n hn
  have hgn := hg n hn
  refine ⟨hgn, ?_, ?_⟩
  · unfold trim
    rw [trimStart_of_head _ hgn.2.2.1, trimEnd_of_last _ hgn.2.2.2]
  · intro v hv
    have hgv : GoodName v.fullName.value := by rw [hv]; exact hgn
    exact (validateName_of_goodName v hgv).2

/-- A session: a form is filled in and submitted, the list is refreshed, a second name
is entered and submitted with the Enter key, and the first entry is deleted. -/
theorem stored_names_stay_good_witness :
    ((exampleForm "" "" "" "" "").storage = .absent ∨
      (exampleForm "" "" "" "" "").storage = .json (.array [])) ∧
    ((exampleForm "" "" "" "" "").userList = none ∨
      (exampleForm "" "" "" "" "").userList = some []) ∧
    ∃ L, storedNames (run id (fun _ => []) (exampleForm "" "" "" "" "")
        [.edit .fullName (js " Alice Smith "), .edit .email (js "a@b.co"),
         .edit .phone (js "0000000000"), .edit .password (js "hunter22x"),
         .edit .confirmPassword (js "hunter22x"), .submit, .timer,
         .edit .fullName (js "Bob Stone"), .edit .email (js "bob@stone.org"),
         .edit .phone (js "5550001111"), .edit .password (js "stonewall9"),
         .edit .confirmPassword (js "stonewall9"),
         .key .confirmPassword (js "Enter"), .timer, .delete 0, .clear false]).storage =
        some L ∧
      ∀ n ∈ L, GoodName n ∧ trim n = n ∧
        ∀ v : World, v.fullName.value = n → (validateName v).1 = true :=
  ⟨Or.inl rfl, Or.inr rfl,
   stored_names_stay_good id (fun _ => []) (exampleForm "" "" "" "" "") _
     (Or.inl rfl) (Or.inr rfl)⟩

end FormValidation
